import Mathlib

set_option maxRecDepth 100000

/-!
Verification development for the symbolic scalar expression engine
(`crates/circuit/src/symbol_expr.rs`, `symbol_parser.rs`,
`parameterexpression.rs`).

The Rust code is shallowly embedded.  `f64` is modelled by `F64`:
an exact rational together with the IEEE special values `inf`, `ninf`
and `nan`; rounding of finite results is abstracted away (every claim
settled here is independent of rounding).  Transcendental functions
(`sin`, `powf`, ...) have no exact rational meaning, so the embedding
is parametrised by a model `TMod` supplying them; no theorem below
depends on the values such a model returns.  `i64` arithmetic is
modelled on `Int` with explicit two's-complement wrapping modulo 2^64
(Rust release-profile overflow semantics).
-/

namespace SymEngine

/-- Model of `f64`: exact rational plus IEEE special values. -/
inductive F64 where
  | num (q : ℚ)
  | inf
  | ninf
  | nan
deriving DecidableEq, Repr

/-- Absolute value on `ℚ` written so that it kernel-evaluates. -/
def qabs (q : ℚ) : ℚ := if q < 0 then -q else q

namespace F64

/-- `f64::EPSILON` = 2^-52, exactly representable as a rational. -/
def EPS : ℚ := 1 / 2 ^ 52

/-- IEEE negation. -/
def neg : F64 → F64
  | num a => num (-a)
  | inf => ninf
  | ninf => inf
  | nan => nan

/-- IEEE addition (finite part exact; rounding abstracted). -/
def add : F64 → F64 → F64
  | nan, _ => nan
  | _, nan => nan
  | num a, num b => num (a + b)
  | inf, ninf => nan
  | ninf, inf => nan
  | inf, _ => inf
  | _, inf => inf
  | ninf, _ => ninf
  | _, ninf => ninf

/-- IEEE subtraction. -/
def sub (a b : F64) : F64 := add a (neg b)

/-- IEEE multiplication. -/
def mul : F64 → F64 → F64
  | nan, _ => nan
  | _, nan => nan
  | num a, num b => num (a * b)
  | inf, num b => if b > 0 then inf else if b < 0 then ninf else nan
  | num a, inf => if a > 0 then inf else if a < 0 then ninf else nan
  | ninf, num b => if b > 0 then ninf else if b < 0 then inf else nan
  | num a, ninf => if a > 0 then ninf else if a < 0 then inf else nan
  | inf, inf => inf
  | ninf, ninf => inf
  | inf, ninf => ninf
  | ninf, inf => ninf

/-- IEEE division (with the division-by-zero sign conventions of a
positive zero divisor, the only zero our exact model has). -/
def div : F64 → F64 → F64
  | nan, _ => nan
  | _, nan => nan
  | num a, num b =>
    if b = 0 then (if a > 0 then inf else if a < 0 then ninf else nan)
    else num (a / b)
  | num _, inf => num 0
  | num _, ninf => num 0
  | inf, num b => if b < 0 then ninf else inf
  | ninf, num b => if b < 0 then inf else ninf
  | inf, inf => nan
  | inf, ninf => nan
  | ninf, inf => nan
  | ninf, ninf => nan

/-- IEEE `<` as a boolean (false whenever `nan` is involved). -/
def ltb : F64 → F64 → Bool
  | nan, _ => false
  | _, nan => false
  | num a, num b => a < b
  | inf, _ => false
  | num _, inf => true
  | ninf, inf => true
  | ninf, num _ => true
  | ninf, ninf => false
  | num _, ninf => false

/-- IEEE `==` as a boolean (false whenever `nan` is involved). -/
def eqb : F64 → F64 → Bool
  | num a, num b => a = b
  | inf, inf => true
  | ninf, ninf => true
  | _, _ => false

/-- IEEE `>` as a boolean. -/
def gtb (a b : F64) : Bool := ltb b a

/-- IEEE `>=` as a boolean. -/
def geb (a b : F64) : Bool := ltb b a || eqb a b

/-- IEEE `<=` as a boolean. -/
def leb (a b : F64) : Bool := ltb a b || eqb a b

/-- `f64::abs`. -/
def abs : F64 → F64
  | num a => num (qabs a)
  | inf => inf
  | ninf => inf
  | nan => nan

/-- `f64::floor`. -/
def floor : F64 → F64
  | num a => num (⌊a⌋ : ℤ)
  | inf => inf
  | ninf => ninf
  | nan => nan

/-- `PartialOrd` on `f64` (`None` whenever `nan` is involved). -/
def pcmp : F64 → F64 → Option Ordering
  | nan, _ => none
  | _, nan => none
  | num a, num b =>
    some (if a < b then Ordering.lt else if b < a then Ordering.gt else Ordering.eq)
  | inf, inf => some Ordering.eq
  | inf, _ => some Ordering.gt
  | _, inf => some Ordering.lt
  | ninf, ninf => some Ordering.eq
  | ninf, _ => some Ordering.lt
  | _, ninf => some Ordering.gt

/-- Rust `as f64` on an `i64` value (exact in this model). -/
def ofInt (i : ℤ) : F64 := num (i : ℚ)

/-- Truncation of a rational toward zero. -/
def truncQ (q : ℚ) : ℤ := if 0 ≤ q then ⌊q⌋ else ⌈q⌉

/-- Rust `as i64` on an `f64` value: truncate toward zero, saturate
at the `i64` bounds, `nan` goes to 0. -/
def toI64 : F64 → ℤ
  | num a =>
    let t := truncQ a
    if t < -(2 ^ 63) then -(2 ^ 63)
    else if t > 2 ^ 63 - 1 then 2 ^ 63 - 1
    else t
  | inf => 2 ^ 63 - 1
  | ninf => -(2 ^ 63)
  | nan => 0

end F64

/-- Model of `num_complex::Complex64`: a pair of `f64`. -/
structure ComplexF where
  re : F64
  im : F64
deriving DecidableEq, Repr

namespace ComplexF

/-- `Complex64::from(f64)`. -/
def ofF64 (f : F64) : ComplexF := ⟨f, F64.num 0⟩

/-- Complex negation (componentwise). -/
def neg (a : ComplexF) : ComplexF := ⟨a.re.neg, a.im.neg⟩

/-- Complex conjugate. -/
def conj (a : ComplexF) : ComplexF := ⟨a.re, a.im.neg⟩

/-- Complex + Complex (componentwise). -/
def add (a b : ComplexF) : ComplexF := ⟨a.re.add b.re, a.im.add b.im⟩

/-- Complex - Complex (componentwise). -/
def sub (a b : ComplexF) : ComplexF := ⟨a.re.sub b.re, a.im.sub b.im⟩

/-- Complex * Complex (the `num_complex` formula). -/
def mul (a b : ComplexF) : ComplexF :=
  ⟨(a.re.mul b.re).sub (a.im.mul b.im), (a.re.mul b.im).add (a.im.mul b.re)⟩

/-- Complex / Complex (the `num_complex` formula via the squared norm). -/
def div (a b : ComplexF) : ComplexF :=
  let n := (b.re.mul b.re).add (b.im.mul b.im)
  ⟨((a.re.mul b.re).add (a.im.mul b.im)).div n,
   ((a.im.mul b.re).sub (a.re.mul b.im)).div n⟩

/-- Complex + f64 (`num_complex` adds to the real component). -/
def addF (a : ComplexF) (f : F64) : ComplexF := ⟨a.re.add f, a.im⟩

/-- Complex - f64. -/
def subF (a : ComplexF) (f : F64) : ComplexF := ⟨a.re.sub f, a.im⟩

/-- Complex * f64 (componentwise scale). -/
def mulF (a : ComplexF) (f : F64) : ComplexF := ⟨a.re.mul f, a.im.mul f⟩

/-- Complex / f64 (componentwise). -/
def divF (a : ComplexF) (f : F64) : ComplexF := ⟨a.re.div f, a.im.div f⟩

/-- f64 + Complex. -/
def fAdd (f : F64) (a : ComplexF) : ComplexF := ⟨f.add a.re, a.im⟩

/-- f64 - Complex. -/
def fSub (f : F64) (a : ComplexF) : ComplexF := ⟨f.sub a.re, a.im.neg⟩

/-- f64 * Complex. -/
def fMul (f : F64) (a : ComplexF) : ComplexF := ⟨f.mul a.re, f.mul a.im⟩

/-- f64 / Complex (full complex division). -/
def fDiv (f : F64) (a : ComplexF) : ComplexF := div (ofF64 f) a

end ComplexF

/-- Model of the transcendental `f64`/`Complex64` library functions.
They have no exact rational semantics, so the embedding is
parametrised over them; no theorem in this development depends on the
values a model returns. -/
structure TMod where
  fsin : F64 → F64
  fasin : F64 → F64
  fcos : F64 → F64
  facos : F64 → F64
  ftan : F64 → F64
  fatan : F64 → F64
  fexp : F64 → F64
  fln : F64 → F64
  fsqrt : F64 → F64
  fpowf : F64 → F64 → F64
  csin : ComplexF → ComplexF
  casin : ComplexF → ComplexF
  ccos : ComplexF → ComplexF
  cacos : ComplexF → ComplexF
  ctan : ComplexF → ComplexF
  catan : ComplexF → ComplexF
  cexp : ComplexF → ComplexF
  cln : ComplexF → ComplexF
  csqrt : ComplexF → ComplexF
  cpowf : ComplexF → F64 → ComplexF
  cpowc : ComplexF → ComplexF → ComplexF

/-- A trivial transcendental model, used only to instantiate closed
statements whose evaluation never reaches a transcendental call. -/
def TM0 : TMod where
  fsin := fun _ => F64.nan
  fasin := fun _ => F64.nan
  fcos := fun _ => F64.nan
  facos := fun _ => F64.nan
  ftan := fun _ => F64.nan
  fatan := fun _ => F64.nan
  fexp := fun _ => F64.nan
  fln := fun _ => F64.nan
  fsqrt := fun _ => F64.nan
  fpowf := fun _ _ => F64.nan
  csin := fun _ => ⟨F64.nan, F64.nan⟩
  casin := fun _ => ⟨F64.nan, F64.nan⟩
  ccos := fun _ => ⟨F64.nan, F64.nan⟩
  cacos := fun _ => ⟨F64.nan, F64.nan⟩
  ctan := fun _ => ⟨F64.nan, F64.nan⟩
  catan := fun _ => ⟨F64.nan, F64.nan⟩
  cexp := fun _ => ⟨F64.nan, F64.nan⟩
  cln := fun _ => ⟨F64.nan, F64.nan⟩
  csqrt := fun _ => ⟨F64.nan, F64.nan⟩
  cpowf := fun _ _ => ⟨F64.nan, F64.nan⟩
  cpowc := fun _ _ => ⟨F64.nan, F64.nan⟩

/-- Two's-complement wrap of an integer into the `i64` range
(Rust release-profile overflow semantics for `i64` arithmetic). -/
def wrap64 (x : ℤ) : ℤ := (x + 2 ^ 63) % 2 ^ 64 - 2 ^ 63

/-- The boolean test `x < f64::EPSILON && x > -f64::EPSILON`. -/
def epsOO (f : F64) : Bool :=
  f.ltb (F64.num F64.EPS) && f.gtb (F64.num (-F64.EPS))

/-- The boolean test `x < f64::EPSILON && x >= -f64::EPSILON`. -/
def epsCO (f : F64) : Bool :=
  f.ltb (F64.num F64.EPS) && f.geb (F64.num (-F64.EPS))

/-- Digits of the fractional part of a rational, most significant
first (Rust prints the shortest round-tripping decimal; on the exact
values arising here that is the terminating expansion, which this
produces; the fuel bounds the digit count). -/
def fracDigits : ℕ → ℚ → List Char
  | 0, _ => []
  | n + 1, r =>
    if r = 0 then []
    else
      let r10 := r * 10
      let d : ℤ := ⌊r10⌋
      Char.ofNat (48 + d.toNat) :: fracDigits n (r10 - d)

/-- Decimal rendering of a rational, modelling `f64` `Display`. -/
def ratToString (q : ℚ) : String :=
  let sgn := if q < 0 then "-" else ""
  let aq := qabs q
  let ip : ℤ := ⌊aq⌋
  let fr := aq - ip
  if fr = 0 then sgn ++ toString ip
  else sgn ++ toString ip ++ "." ++ String.mk (fracDigits 40 fr)

/-- `Display` for `f64`. -/
def F64.toStr : F64 → String
  | F64.num q => ratToString q
  | F64.inf => "inf"
  | F64.ninf => "-inf"
  | F64.nan => "NaN"

/-- `Display` for `Complex64` (the `num_complex` `a+bi` form). -/
def ComplexF.toStr (c : ComplexF) : String :=
  if c.im.ltb (F64.num 0) then c.re.toStr ++ "-" ++ c.im.neg.toStr ++ "i"
  else c.re.toStr ++ "+" ++ c.im.toStr ++ "i"

/-- The three-variant numeric scalar (`enum Value`). -/
inductive Value where
  | Real (f : F64)
  | Int (i : ℤ)
  | Complex (c : ComplexF)
deriving DecidableEq, Repr

namespace Value

/-- `Value::to_string`. -/
def to_string : Value → String
  | Real e => e.toStr
  | Int e => toString e
  | Complex e =>
    if epsOO e.re then
      if epsOO e.im then toString (0 : ℤ)
      else e.im.toStr ++ "i"
    else if epsOO e.im then e.re.toStr
    else e.toStr

/-- `Value::as_real`. -/
def as_real : Value → F64
  | Real e => e
  | Int e => F64.ofInt e
  | Complex e => e.re

/-- `Value::opt_complex`: collapse a complex with negligible
imaginary part to the real variant. -/
def opt_complex : Value → Option Value
  | Complex c => if epsOO c.im then some (Real c.re) else none
  | _ => none

/-- The recurring `match t.opt_complex() { Some(v) => v, None => t }`. -/
def collapse (t : Value) : Value :=
  match t.opt_complex with
  | some v => v
  | none => t

/-- `Value::is_zero`. -/
def is_zero : Value → Bool
  | Real r => epsOO r
  | Int i => i = 0
  | Complex c => epsOO c.re && epsOO c.im

/-- `Value::is_one`. -/
def is_one : Value → Bool
  | Real r => epsOO (r.sub (F64.num 1))
  | Int i => i = 1
  | Complex c => epsOO (c.re.sub (F64.num 1)) && epsOO c.im

/-- `Value::is_minus_one`. -/
def is_minus_one : Value → Bool
  | Real r => epsOO (r.add (F64.num 1))
  | Int i => i = -1
  | Complex c => epsOO (c.re.add (F64.num 1)) && epsOO c.im

/-- `Value::is_negative`. -/
def is_negative : Value → Bool
  | Real r => r.ltb (F64.num 0)
  | Int i => i < 0
  | Complex c =>
    (c.re.ltb (F64.num 0) && epsOO c.im) || (c.im.ltb (F64.num 0) && epsOO c.re)

/-- `Neg` for `&Value`. -/
def neg : Value → Value
  | Real v => Real v.neg
  | Int v => Int (wrap64 (-v))
  | Complex v => Complex v.neg

/-- `Add` for `&Value` (integer addition wraps in `i64`). -/
def add (a b : Value) : Value :=
  let t : Value :=
    match a, b with
    | Real l, Real r => Real (l.add r)
    | Real l, Int r => Real (l.add (F64.ofInt r))
    | Real l, Complex r => Complex (ComplexF.fAdd l r)
    | Int l, Real r => Real ((F64.ofInt l).add r)
    | Int l, Int r => Int (wrap64 (l + r))
    | Int l, Complex r => Complex (ComplexF.fAdd (F64.ofInt l) r)
    | Complex l, Real r => Complex (l.addF r)
    | Complex l, Int r => Complex (l.addF (F64.ofInt r))
    | Complex l, Complex r => Complex (l.add r)
  collapse t

/-- `Sub` for `&Value`. -/
def sub (a b : Value) : Value :=
  let t : Value :=
    match a, b with
    | Real l, Real r => Real (l.sub r)
    | Real l, Int r => Real (l.sub (F64.ofInt r))
    | Real l, Complex r => Complex (ComplexF.fSub l r)
    | Int l, Real r => Real ((F64.ofInt l).sub r)
    | Int l, Int r => Int (wrap64 (l - r))
    | Int l, Complex r => Complex (ComplexF.fSub (F64.ofInt l) r)
    | Complex l, Real r => Complex (l.subF r)
    | Complex l, Int r => Complex (l.subF (F64.ofInt r))
    | Complex l, Complex r => Complex (l.sub r)
  collapse t

/-- `Mul` for `&Value`. -/
def mul (a b : Value) : Value :=
  let t : Value :=
    match a, b with
    | Real l, Real r => Real (l.mul r)
    | Real l, Int r => Real (l.mul (F64.ofInt r))
    | Real l, Complex r => Complex (ComplexF.fMul l r)
    | Int l, Real r => Real ((F64.ofInt l).mul r)
    | Int l, Int r => Int (wrap64 (l * r))
    | Int l, Complex r => Complex (ComplexF.fMul (F64.ofInt l) r)
    | Complex l, Real r => Complex (l.mulF r)
    | Complex l, Int r => Complex (l.mulF (F64.ofInt r))
    | Complex l, Complex r => Complex (l.mul r)
  collapse t

/-- `PartialEq<f64>` for `Value`. -/
def eqF (v : Value) (r : F64) : Bool :=
  match v with
  | Real e => (e.sub r).abs.ltb (F64.num F64.EPS)
  | Int e => ((F64.ofInt e).sub r).abs.ltb (F64.num F64.EPS)
  | Complex e =>
    let t := e.sub (ComplexF.ofF64 r)
    epsOO t.re && epsOO t.im

/-- `Div` for `&Value`: the integer-numerator branch returns the real
positive-infinity sentinel for any divisor equal to zero; integer /
integer stays integer when exact. -/
def div (a b : Value) : Value :=
  match a with
  | Real l =>
    collapse (match b with
      | Real r => Real (l.div r)
      | Int r => Real (l.div (F64.ofInt r))
      | Complex r => Complex (ComplexF.fDiv l r))
  | Int l =>
    if eqF b (F64.num 0) then Real F64.inf
    else
      collapse (match b with
        | Real r => Real ((F64.ofInt l).div r)
        | Int r =>
          let t := (F64.ofInt l).div (F64.ofInt r)
          let d := t.floor.sub t
          if epsCO d then Int (F64.toI64 t) else Real t
        | Complex r => Complex (ComplexF.fDiv (F64.ofInt l) r))
  | Complex l =>
    collapse (match b with
      | Real r => Complex (l.divF r)
      | Int r => Complex (l.divF (F64.ofInt r))
      | Complex r => Complex (l.div r))

/-- `PartialEq` for `Value` (ε-banded across kinds). -/
def eqV (a b : Value) : Bool :=
  match a, b with
  | Real e, Real rv => (e.sub rv).abs.ltb (F64.num F64.EPS)
  | Real e, Int rv => (e.sub (F64.ofInt rv)).abs.ltb (F64.num F64.EPS)
  | Real e, Complex rv =>
    let t := (ComplexF.ofF64 e).sub rv
    epsOO t.re && epsOO t.im
  | Int e, Int rv => e = rv
  | Int e, Real rv => ((F64.ofInt e).sub rv).abs.ltb (F64.num F64.EPS)
  | Int e, Complex rv =>
    let t := (ComplexF.ofF64 (F64.ofInt e)).sub rv
    epsOO t.re && epsOO t.im
  | Complex e, Real rv =>
    let t := e.sub (ComplexF.ofF64 rv)
    epsOO t.re && epsOO t.im
  | Complex e, Int rv =>
    let t := e.sub (ComplexF.ofF64 (F64.ofInt rv))
    epsOO t.re && epsOO t.im
  | Complex e, Complex rv =>
    let t := e.sub rv
    epsOO t.re && epsOO t.im

/-- `PartialOrd` for `Value` (`None` on any complex operand). -/
def pcmp : Value → Value → Option Ordering
  | Real l, Real r => F64.pcmp l r
  | Real l, Int r => F64.pcmp l (F64.ofInt r)
  | Real _, Complex _ => none
  | Int l, Real r => F64.pcmp (F64.ofInt l) r
  | Int l, Int r =>
    some (if l < r then Ordering.lt else if r < l then Ordering.gt else Ordering.eq)
  | Int _, Complex _ => none
  | Complex _, _ => none

/-- `Value::abs` (`i64::abs` wraps on `i64::MIN`). -/
def abs (M : TMod) : Value → Value
  | Real e => Real e.abs
  | Int e => Int (wrap64 (if e < 0 then -e else e))
  | Complex e => Real (M.fsqrt ((e.re.mul e.re).add (e.im.mul e.im)))

/-- `Value::sin`. -/
def sin (M : TMod) : Value → Value
  | Real e => Real (M.fsin e)
  | Int e => Real (M.fsin (F64.ofInt e))
  | Complex e => collapse (Complex (M.csin e))

/-- `Value::asin`. -/
def asin (M : TMod) : Value → Value
  | Real e => Real (M.fasin e)
  | Int e => Real (M.fasin (F64.ofInt e))
  | Complex e => collapse (Complex (M.casin e))

/-- `Value::cos`. -/
def cos (M : TMod) : Value → Value
  | Real e => Real (M.fcos e)
  | Int e => Real (M.fcos (F64.ofInt e))
  | Complex e => collapse (Complex (M.ccos e))

/-- `Value::acos`. -/
def acos (M : TMod) : Value → Value
  | Real e => Real (M.facos e)
  | Int e => Real (M.facos (F64.ofInt e))
  | Complex e => collapse (Complex (M.cacos e))

/-- `Value::tan`. -/
def tan (M : TMod) : Value → Value
  | Real e => Real (M.ftan e)
  | Int e => Real (M.ftan (F64.ofInt e))
  | Complex e => collapse (Complex (M.ctan e))

/-- `Value::atan`. -/
def atan (M : TMod) : Value → Value
  | Real e => Real (M.fatan e)
  | Int e => Real (M.fatan (F64.ofInt e))
  | Complex e => collapse (Complex (M.catan e))

/-- `Value::exp`. -/
def exp (M : TMod) : Value → Value
  | Real e => Real (M.fexp e)
  | Int e => Real (M.fexp (F64.ofInt e))
  | Complex e => collapse (Complex (M.cexp e))

/-- `Value::log` (natural logarithm). -/
def log (M : TMod) : Value → Value
  | Real e => Real (M.fln e)
  | Int e => Real (M.fln (F64.ofInt e))
  | Complex e => collapse (Complex (M.cln e))

/-- `Value::sqrt` (exact integer results stay integer). -/
def sqrt (M : TMod) : Value → Value
  | Real e => Real (M.fsqrt e)
  | Int e =>
    let t := M.fsqrt (F64.ofInt e)
    let d := t.floor.sub t
    if epsCO d then Int (F64.toI64 t) else Real t
  | Complex e => collapse (Complex (M.csqrt e))

/-- `Value::pow` (kind-promotion rules of the source; a non-negative
integer exponent of an integer base stays integer, wrapping in `i64`). -/
def pow (M : TMod) (a p : Value) : Value :=
  match a with
  | Real e =>
    match p with
    | Real r =>
      if e.ltb (F64.num 0) then Complex (M.cpowf (ComplexF.ofF64 e) r)
      else Real (M.fpowf e r)
    | Int i =>
      if e.ltb (F64.num 0) then Complex (M.cpowf (ComplexF.ofF64 e) (F64.ofInt i))
      else Real (M.fpowf e (F64.ofInt i))
    | Complex r => Complex (M.cpowc (ComplexF.ofF64 e) r)
  | Int e =>
    if e < 0 then
      match p with
      | Real r => Complex (M.cpowf (ComplexF.ofF64 (F64.ofInt e)) r)
      | Int i => Complex (M.cpowf (ComplexF.ofF64 (F64.ofInt e)) (F64.ofInt i))
      | Complex c => Complex (M.cpowc (ComplexF.ofF64 (F64.ofInt e)) c)
    else
      match p with
      | Real r =>
        let t := M.fpowf (F64.ofInt e) r
        let d := t.floor.sub t
        if epsCO d then Int (F64.toI64 t) else Real t
      | Int r =>
        if r < 0 then Real (M.fpowf (F64.ofInt e) (F64.ofInt r))
        else Int (wrap64 (e ^ (r % 2 ^ 32).toNat))
      | Complex r => Complex (M.cpowc (ComplexF.ofF64 (F64.ofInt e)) r)
  | Complex e =>
    let t : Value :=
      match p with
      | Real r => Complex (M.cpowf e r)
      | Int r => Complex (M.cpowf e (F64.ofInt r))
      | Complex r => Complex (M.cpowc e r)
    collapse t

/-- `Value::rcp` (reciprocal; an exact integer reciprocal stays
integer, division by integer zero yields infinity). -/
def rcp : Value → Value
  | Real e => Real ((F64.num 1).div e)
  | Int e =>
    let t := (F64.num 1).div (F64.ofInt e)
    let d := t.floor.sub t
    if epsCO d then Int (F64.toI64 t) else Real t
  | Complex e => Complex (ComplexF.fDiv (F64.num 1) e)

/-- `Value::sign`. -/
def sign : Value → Value
  | Real e =>
    if e.gtb (F64.num F64.EPS) then Real (F64.num 1)
    else if e.ltb (F64.num (-F64.EPS)) then Real (F64.num (-1))
    else Real (F64.num 0)
  | Int e => if e > 0 then Int 1 else if e < 0 then Int (-1) else Int 0
  | Complex c => Complex c

end Value

/-- A named symbol (`struct Symbol`). -/
structure Symbol where
  name : String
deriving DecidableEq, Repr

/-- The unary operator tags (`enum UnaryOps`). -/
inductive UnaryOps where
  | Abs | Neg | Sin | Asin | Cos | Acos | Tan | Atan | Exp | Log | Sign
deriving DecidableEq, Repr

/-- The binary operator tags (`enum BinaryOps`). -/
inductive BinaryOps where
  | Add | Sub | Mul | Div | Pow
deriving DecidableEq, Repr

/-- The expression tree (`enum SymbolExpr`), with the `Unary` and
`Binary` structs flattened into the constructors. -/
inductive SymbolExpr where
  | Symbol (s : Symbol)
  | Value (v : Value)
  | Unary (op : UnaryOps) (expr : SymbolExpr)
  | Binary (op : BinaryOps) (lhs rhs : SymbolExpr)
deriving DecidableEq, Repr

/-- The raw node builder `_mul`. -/
def mkMul (l r : SymbolExpr) : SymbolExpr := .Binary .Mul l r

/-- The raw node builder `_div`. -/
def mkDiv (l r : SymbolExpr) : SymbolExpr := .Binary .Div l r

/-- The raw node builder `_pow`. -/
def mkPow (l r : SymbolExpr) : SymbolExpr := .Binary .Pow l r

/-- The raw node builder `_neg`. -/
def mkNeg (e : SymbolExpr) : SymbolExpr := .Unary .Neg e

/-- `SymbolExpr::is_negative` (heuristic, structural). -/
def is_negative : SymbolExpr → Bool
  | .Value v => v.is_negative
  | .Symbol _ => false
  | .Unary op e =>
    match op with
    | .Abs => false
    | .Neg => !(is_negative e)
    | _ => false
  | .Binary op l r =>
    match op with
    | .Mul | .Div => xor (is_negative l) (is_negative r)
    | .Add | .Sub => is_negative l
    | .Pow => false

/-- The body of `_add` with the negation query passed in. -/
def mkAddW (no : SymbolExpr → Option SymbolExpr) (l r : SymbolExpr) : SymbolExpr :=
  if is_negative r then
    match no r with
    | some e => .Binary .Sub l e
    | none => .Binary .Sub l (mkNeg r)
  else .Binary .Add l r

/-- The body of `_sub` with the negation query passed in. -/
def mkSubW (no : SymbolExpr → Option SymbolExpr) (l r : SymbolExpr) : SymbolExpr :=
  if is_negative r then
    match no r with
    | some e => .Binary .Add l e
    | none => .Binary .Add l (mkNeg r)
  else .Binary .Sub l r

/-- `SymbolExpr::neg_opt`: negate without wrapping when possible.  The
fuel bounds recursion through `_add`/`_sub` on rebuilt operands;
exhausted fuel answers `none` (the conservative `_neg`-wrap path). -/
def negOpt : ℕ → SymbolExpr → Option SymbolExpr
  | 0, _ => none
  | n + 1, e =>
    match e with
    | .Value v => some (.Value v.neg)
    | .Unary .Neg inner => some inner
    | .Unary _ _ => none
    | .Binary .Add l r =>
      (match negOpt n l with
       | some ln =>
         (match negOpt n r with
          | some rn => some (mkAddW (negOpt n) ln rn)
          | none => some (mkSubW (negOpt n) ln r))
       | none =>
         (match negOpt n r with
          | some rn => some (mkAddW (negOpt n) (mkNeg l) rn)
          | none => some (mkSubW (negOpt n) (mkNeg l) r)))
    | .Binary .Sub l r =>
      (match negOpt n l with
       | some ln => some (mkAddW (negOpt n) ln r)
       | none => some (mkAddW (negOpt n) (mkNeg l) r))
    | .Binary .Mul l r =>
      (match negOpt n l with
       | some ln => some (mkMul ln r)
       | none =>
         (match negOpt n r with
          | some rn => some (mkMul l rn)
          | none => none))
    | .Binary .Div l r =>
      (match negOpt n l with
       | some ln => some (mkDiv ln r)
       | none =>
         (match negOpt n r with
          | some rn => some (mkDiv l rn)
          | none => none))
    | .Binary .Pow _ _ => none
    | .Symbol _ => none

/-- The raw builder `_add` (normalizes a negative right operand into a
subtraction). -/
def mkAdd (n : ℕ) (l r : SymbolExpr) : SymbolExpr := mkAddW (negOpt n) l r

/-- The raw builder `_sub` (normalizes a negative right operand into an
addition). -/
def mkSub (n : ℕ) (l r : SymbolExpr) : SymbolExpr := mkSubW (negOpt n) l r

/-- First character of a rendered operand equals `-` (the
`char_indices().nth(0)` test of the renderer). -/
def headIsMinus (s : String) : Bool :=
  match s.data with
  | [] => false
  | c :: _ => c = '-'

/-- The one-character slice the renderer takes in its
subtraction-of-negation branch. -/
def headStr (s : String) : String := String.mk (s.data.take 1)

/-- `to_string` over the tree: the renderer of `SymbolExpr`, `Unary`
and `Binary` combined. -/
def to_string : SymbolExpr → String
  | .Symbol s => s.name
  | .Value v => v.to_string
  | .Unary op e =>
    let s := to_string e
    match op with
    | .Abs => "abs(" ++ s ++ ")"
    | .Neg =>
      (match e with
       | .Value v => v.neg.to_string
       | .Binary bop _ _ =>
         (match bop with
          | .Add | .Sub => "-(" ++ s ++ ")"
          | _ => "-" ++ s)
       | _ => "-" ++ s)
    | .Sin => "sin(" ++ s ++ ")"
    | .Asin => "asin(" ++ s ++ ")"
    | .Cos => "cos(" ++ s ++ ")"
    | .Acos => "acos(" ++ s ++ ")"
    | .Tan => "tan(" ++ s ++ ")"
    | .Atan => "atan(" ++ s ++ ")"
    | .Exp => "exp(" ++ s ++ ")"
    | .Log => "log(" ++ s ++ ")"
    | .Sign => "sign(" ++ s ++ ")"
  | .Binary op l r =>
    let s_lhs := to_string l
    let s_rhs := to_string r
    let op_lhs : Bool :=
      match l with
      | .Binary bop _ _ =>
        (match bop with
         | .Add | .Sub => true
         | _ => false)
      | .Value v =>
        (match v with
         | .Real x => x.ltb (F64.num 0)
         | .Int x => x < 0
         | .Complex _ => true)
      | _ => false
    let op_rhs : Bool :=
      match r with
      | .Binary bop _ _ =>
        (match bop with
         | .Add | .Sub => true
         | _ =>
           (match op with
            | .Div => true
            | _ => false))
      | .Value v =>
        (match v with
         | .Real x => x.ltb (F64.num 0)
         | .Int x => x < 0
         | .Complex _ => true)
      | _ => false
    match op with
    | .Add =>
      (match r with
       | .Unary .Neg _ =>
         if headIsMinus s_rhs then s_lhs ++ " " ++ s_rhs
         else s_lhs ++ " + " ++ s_rhs
       | _ => s_lhs ++ " + " ++ s_rhs)
    | .Sub =>
      (match r with
       | .Unary .Neg _ =>
         if headIsMinus s_rhs then s_lhs ++ " + " ++ headStr s_rhs
         else if op_rhs then s_lhs ++ " -(" ++ s_rhs ++ ")"
         else s_lhs ++ " - " ++ s_rhs
       | _ =>
         if op_rhs then s_lhs ++ " -(" ++ s_rhs ++ ")"
         else s_lhs ++ " - " ++ s_rhs)
    | .Mul =>
      (if op_lhs then "(" ++ s_lhs ++ ")" else s_lhs) ++ "*" ++
        (if op_rhs then "(" ++ s_rhs ++ ")" else s_rhs)
    | .Div =>
      (if op_lhs then "(" ++ s_lhs ++ ")" else s_lhs) ++ "/" ++
        (if op_rhs then "(" ++ s_rhs ++ ")" else s_rhs)
    | .Pow =>
      (match l with
       | .Binary _ _ _ | .Unary _ _ =>
         (match r with
          | .Binary _ _ _ | .Unary _ _ => "(" ++ s_lhs ++ ")**(" ++ s_rhs ++ ")"
          | .Value rv =>
            if rv.as_real.ltb (F64.num 0) then "(" ++ s_lhs ++ ")**(" ++ s_rhs ++ ")"
            else "(" ++ s_lhs ++ ")**" ++ s_rhs
          | _ => "(" ++ s_lhs ++ ")**" ++ s_rhs)
       | .Value lv =>
         if lv.as_real.ltb (F64.num 0) then
           (match r with
            | .Binary _ _ _ | .Unary _ _ => "(" ++ s_lhs ++ ")**(" ++ s_rhs ++ ")"
            | _ => "(" ++ s_lhs ++ ")**" ++ s_rhs)
         else
           (match r with
            | .Binary _ _ _ | .Unary _ _ => s_lhs ++ "**(" ++ s_rhs ++ ")"
            | _ => s_lhs ++ "**" ++ s_rhs)
       | _ =>
         (match r with
          | .Binary _ _ _ | .Unary _ _ => s_lhs ++ "**(" ++ s_rhs ++ ")"
          | .Value rv =>
            if rv.as_real.ltb (F64.num 0) then s_lhs ++ "**(" ++ s_rhs ++ ")"
            else s_lhs ++ "**" ++ s_rhs
          | _ => s_lhs ++ "**" ++ s_rhs))

/-- `SymbolExpr::eval` together with `Unary::eval` and `Binary::eval`
(a binary recurses with `true`; the non-recursive mode only folds
children that are already value nodes). -/
def eval (M : TMod) : Bool → SymbolExpr → Option Value
  | _, .Symbol _ => none
  | _, .Value v => some v
  | recurse, .Unary op e =>
    let val? : Option Value :=
      if recurse then eval M recurse e
      else
        match e with
        | .Value v => some v
        | _ => none
    (match val? with
     | none => none
     | some val =>
       let ret : Value :=
         match op with
         | .Abs => val.abs M
         | .Neg => val.neg
         | .Sin => val.sin M
         | .Asin => val.asin M
         | .Cos => val.cos M
         | .Acos => val.acos M
         | .Tan => val.tan M
         | .Atan => val.atan M
         | .Exp => val.exp M
         | .Log => val.log M
         | .Sign => val.sign
       some (match ret with
             | .Complex c => if epsOO c.im then .Real c.re else ret
             | _ => ret))
  | recurse, .Binary op l r =>
    let lr? : Option (Value × Value) :=
      if recurse then
        match eval M true l, eval M true r with
        | some a, some b => some (a, b)
        | _, _ => none
      else
        match l, r with
        | .Value a, .Value b => some (a, b)
        | _, _ => none
    (match lr? with
     | none => none
     | some (lval, rval) =>
       let ret : Value :=
         match op with
         | .Add => lval.add rval
         | .Sub => lval.sub rval
         | .Mul => lval.mul rval
         | .Div => lval.div rval
         | .Pow => lval.pow M rval
       some (match ret with
             | .Complex c => if epsOO c.im then .Real c.re else ret
             | _ => ret))

/-- `SymbolExpr::is_zero` (via full evaluation). -/
def is_zero (M : TMod) (e : SymbolExpr) : Bool :=
  match eval M true e with
  | some v => v.is_zero
  | none => false

/-- `SymbolExpr::is_one`. -/
def is_one (M : TMod) (e : SymbolExpr) : Bool :=
  match eval M true e with
  | some v => v.is_one
  | none => false

/-- `SymbolExpr::is_minus_one`. -/
def is_minus_one (M : TMod) (e : SymbolExpr) : Bool :=
  match eval M true e with
  | some v => v.is_minus_one
  | none => false

/-- `SymbolExpr::is_int` (absent when evaluation is absent). -/
def is_int (M : TMod) (e : SymbolExpr) : Option Bool :=
  match eval M true e with
  | some (.Int _) => some true
  | some _ => some false
  | none => none

/-- `SymbolExpr::real`. -/
def realAcc (M : TMod) (e : SymbolExpr) : Option F64 :=
  match eval M true e with
  | some (.Real r) => some r
  | some (.Int r) => some (F64.ofInt r)
  | some (.Complex c) => some c.re
  | none => none

/-- `SymbolExpr::imag`. -/
def imagAcc (M : TMod) (e : SymbolExpr) : Option F64 :=
  match eval M true e with
  | some (.Real _) => some (F64.num 0)
  | some (.Int _) => some (F64.num 0)
  | some (.Complex c) => some c.im
  | none => none

/-- `SymbolExpr::complex`, embedded exactly as written: the `Real`
and `Int` arms answer `Some(0.0.into())`, discarding the value. -/
def complexAcc (M : TMod) (e : SymbolExpr) : Option ComplexF :=
  match eval M true e with
  | some (.Real _) => some (ComplexF.ofF64 (F64.num 0))
  | some (.Int _) => some (ComplexF.ofF64 (F64.num 0))
  | some (.Complex c) => some c
  | none => none

/-- `SymbolExpr::has_symbol`. -/
def has_symbol : SymbolExpr → String → Bool
  | .Symbol s, p => s.name = p
  | .Value _, _ => false
  | .Unary _ e, p => has_symbol e p
  | .Binary _ l r, p => has_symbol l p || has_symbol r p

/-- Node count of an expression tree (termination measure). -/
def esize : SymbolExpr → ℕ
  | .Symbol _ => 1
  | .Value _ => 1
  | .Unary _ e => esize e + 1
  | .Binary _ l r => esize l + esize r + 1

/-- String comparison as Rust's `partial_cmp` on `String` (always
defined; UTF-8 byte order coincides with code-point order). -/
def ordStr (a b : String) : Ordering :=
  if a < b then Ordering.lt else if b < a then Ordering.gt else Ordering.eq

/-- `PartialOrd` for `SymbolExpr`: the sorting comparator (value <
symbol < unary < binary, with the string-length tie-break between
binaries; `String::len` counts bytes, which agrees with the character
count on the ASCII names used in the claims). -/
def pcmpE : SymbolExpr → SymbolExpr → Option Ordering
  | .Value l, .Value rv => Value.pcmp l rv
  | .Value _, _ => some Ordering.lt
  | .Symbol _, .Value _ => some Ordering.gt
  | .Symbol l, .Symbol rv => some (ordStr l.name rv.name)
  | .Symbol l, .Unary _ re => pcmpE (.Symbol l) re
  | .Symbol _, .Binary _ _ _ => some Ordering.lt
  | .Unary _ _, .Value _ => some Ordering.gt
  | .Unary _ le, .Unary _ re => pcmpE le re
  | .Unary _ le, .Symbol rs => pcmpE le (.Symbol rs)
  | .Unary _ le, .Binary rop rl rr => pcmpE le (.Binary rop rl rr)
  | .Binary lop _ _, .Value _ =>
    (match lop with
     | .Mul | .Div | .Pow => some Ordering.gt
     | _ => some Ordering.eq)
  | .Binary lop _ _, .Symbol _ =>
    (match lop with
     | .Mul | .Div | .Pow => some Ordering.gt
     | _ => some Ordering.eq)
  | .Binary lop ll lr, .Unary _ re => pcmpE (.Binary lop ll lr) re
  | .Binary lop ll lr, .Binary rop rl rr =>
    let ls := match ll with
      | .Value _ => to_string lr
      | _ => to_string (.Binary lop ll lr)
    let rs := match rl with
      | .Value _ => to_string rr
      | _ => to_string (.Binary rop rl rr)
    if ls < rs ∧ ls.length < rs.length then some Ordering.lt
    else if rs < ls ∧ rs.length < ls.length then some Ordering.gt
    else some Ordering.eq
termination_by a b => esize a + esize b
decreasing_by all_goals (simp [esize] <;> omega)

/-- `PartialOrd::lt` for `SymbolExpr`. -/
def ltE (a b : SymbolExpr) : Bool := pcmpE a b == some Ordering.lt

section Simplifier

variable (M : TMod)

/-!
The heuristic simplifier: one mutually recursive family, exactly
mirroring the `add_opt` / `sub_opt` / `mul_opt` / `div_opt` /
`mul_expand` / `div_expand` / `expand` methods of `SymbolExpr`,
`Symbol`, `Value`, `Unary` and `Binary`, the arithmetic-operator
impls (`symAdd` ... `symDiv`), and `PartialEq` for `SymbolExpr`
(`exprEq`).  The Rust recursion is not structural (operands are
rebuilt and re-examined), so every function takes fuel and each
nested call decrements it; exhausted fuel gives the conservative
"no optimization found" answer.  Rust's early `return`s inside these
methods always return `Some(..)`, so fall-through between the
source's sequential blocks is modelled by `<|>` on `Option`.
-/
mutual

/-- `SymbolExpr::add_opt`. -/
def SymbolExpr.add_opt : ℕ → SymbolExpr → SymbolExpr → Option SymbolExpr
  | 0, _, _ => none
  | n + 1, self, rhs =>
    if is_zero M self then some rhs
    else if is_zero M rhs then some self
    else
      match rhs with
      | .Unary .Neg rexpr => SymbolExpr.sub_opt n self rexpr
      | _ =>
        match self with
        | .Value e => Value.add_opt n e rhs
        | .Symbol e => Symbol.add_opt n e rhs
        | .Unary uop uex =>
          (match Unary.add_opt n uop uex rhs with
           | some opt => some opt
           | none =>
             match rhs with
             | .Binary rop _ _ =>
               (match rop with
                | .Mul | .Div | .Pow =>
                  if ltE rhs self then some (mkAdd n rhs self) else none
                | _ => none)
             | _ => if ltE rhs self then some (mkAdd n rhs self) else none)
        | .Binary lop ll lr =>
          (match Binary.add_opt n lop ll lr rhs with
           | some opt => some opt
           | none =>
             match lop with
             | .Mul | .Div | .Pow =>
               (match rhs with
                | .Binary rop _ _ =>
                  (match rop with
                   | .Mul | .Div | .Pow =>
                     if ltE rhs self then some (mkAdd n rhs self) else none
                   | _ => none)
                | _ => if ltE rhs self then some (mkAdd n rhs self) else none)
             | _ => none)

/-- `SymbolExpr::sub_opt`. -/
def SymbolExpr.sub_opt : ℕ → SymbolExpr → SymbolExpr → Option SymbolExpr
  | 0, _, _ => none
  | n + 1, self, rhs =>
    if is_zero M self then some (mkNeg rhs)
    else if is_zero M rhs then some self
    else
      match rhs with
      | .Unary .Neg rexpr => SymbolExpr.add_opt n self rexpr
      | _ =>
        match self with
        | .Value e => Value.sub_opt n e rhs
        | .Symbol e => Symbol.sub_opt n e rhs
        | .Unary uop uex =>
          (match Unary.sub_opt n uop uex rhs with
           | some opt => some opt
           | none =>
             match rhs with
             | .Binary rop _ _ =>
               (match rop with
                | .Mul | .Div | .Pow =>
                  if ltE rhs self then
                    some (match negOpt n rhs with
                          | some e => mkAdd n e self
                          | none => mkAdd n (mkNeg rhs) self)
                  else none
                | _ => none)
             | _ =>
               if ltE rhs self then
                 some (match negOpt n rhs with
                       | some e => mkAdd n e self
                       | none => mkAdd n (mkNeg rhs) self)
               else none)
        | .Binary lop ll lr =>
          (match Binary.sub_opt n lop ll lr rhs with
           | some opt => some opt
           | none =>
             match lop with
             | .Mul | .Div | .Pow =>
               (match rhs with
                | .Binary rop _ _ =>
                  (match rop with
                   | .Mul | .Div | .Pow =>
                     if ltE rhs self then
                       some (match negOpt n rhs with
                             | some e => mkAdd n e self
                             | none => mkAdd n (mkNeg rhs) self)
                     else none
                   | _ => none)
                | _ =>
                  if ltE rhs self then
                    some (match negOpt n rhs with
                          | some e => mkAdd n e self
                          | none => mkAdd n (mkNeg rhs) self)
                  else none)
             | _ => none)

/-- `SymbolExpr::mul_opt`. -/
def SymbolExpr.mul_opt : ℕ → SymbolExpr → SymbolExpr → Option SymbolExpr
  | 0, _, _ => none
  | n + 1, self, rhs =>
    if is_zero M self then some self
    else if is_zero M rhs then some rhs
    else if is_one M self then some rhs
    else if is_one M rhs then some self
    else if is_minus_one M self then
      some (match negOpt n rhs with
            | some e => e
            | none => mkNeg rhs)
    else if is_minus_one M rhs then
      some (match negOpt n self with
            | some e => e
            | none => mkNeg self)
    else
      match rhs, self with
      | .Value _, .Unary _ _ | .Symbol _, .Unary _ _ =>
        some (match SymbolExpr.mul_opt n rhs self with
              | some e => e
              | none => mkMul rhs self)
      | _, _ =>
        match self with
        | .Unary uop uex => Unary.mul_opt n uop uex rhs
        | .Binary bop bl br => Binary.mul_opt n bop bl br rhs
        | .Value e => Value.mul_opt n e rhs
        | .Symbol e => Symbol.mul_opt n e rhs

/-- `SymbolExpr::div_opt` (the numerator-is-zero test precedes the
divisor-is-zero test; the duplicated divisor test of the source is
kept verbatim even though it is dead). -/
def SymbolExpr.div_opt : ℕ → SymbolExpr → SymbolExpr → Option SymbolExpr
  | 0, _, _ => none
  | n + 1, self, rhs =>
    if is_zero M self then some self
    else if is_zero M rhs then some (.Value (.Real F64.inf))
    else if is_zero M rhs then some self
    else if is_minus_one M rhs then
      some (match negOpt n self with
            | some e => e
            | none => mkNeg self)
    else if exprEq n self rhs then
      let l_is_int := match is_int M self with
        | some i => i
        | none => false
      let r_is_int := match is_int M rhs with
        | some i => i
        | none => false
      if l_is_int || r_is_int then some (.Value (.Int 1))
      else some (.Value (.Real (F64.num 1)))
    else
      match self with
      | .Unary uop uex => Unary.div_opt n uop uex rhs
      | .Binary bop bl br => Binary.div_opt n bop bl br rhs
      | .Value e => Value.div_opt n e rhs
      | .Symbol e => Symbol.div_opt n e rhs

/-- `SymbolExpr::mul_expand`. -/
def SymbolExpr.mul_expand : ℕ → SymbolExpr → SymbolExpr → Option SymbolExpr
  | 0, _, _ => none
  | n + 1, self, rhs =>
    match rhs with
    | .Binary .Add rl rr =>
      let el := match SymbolExpr.mul_expand n self rl with
        | some e => e
        | none =>
          match SymbolExpr.mul_opt n self rl with
          | some e => e
          | none => mkMul self rl
      let er := match SymbolExpr.mul_expand n self rr with
        | some e => e
        | none =>
          match SymbolExpr.mul_opt n self rr with
          | some e => e
          | none => mkMul self rr
      some (match SymbolExpr.add_opt n el er with
            | some e => e
            | none => mkAdd n el er)
    | .Binary .Sub rl rr =>
      let el := match SymbolExpr.mul_expand n self rl with
        | some e => e
        | none =>
          match SymbolExpr.mul_opt n self rl with
          | some e => e
          | none => mkMul self rl
      let er := match SymbolExpr.mul_expand n self rr with
        | some e => e
        | none =>
          match SymbolExpr.mul_opt n self rr with
          | some e => e
          | none => mkMul self rr
      some (match SymbolExpr.sub_opt n el er with
            | some e => e
            | none => mkSub n el er)
    | .Binary .Mul rl rr =>
      (match SymbolExpr.mul_expand n self rl with
       | some e =>
         (match SymbolExpr.mul_expand n e rr with
          | some ee => some ee
          | none => some (mkMul e rr))
       | none =>
         (match SymbolExpr.mul_expand n self rr with
          | some e => some (mkMul e rl)
          | none => none))
    | .Binary .Div rl rr =>
      (match SymbolExpr.mul_expand n self rl with
       | some e =>
         (match SymbolExpr.mul_expand n e rr with
          | some ee => some ee
          | none => some (mkMul e rr))
       | none =>
         (match SymbolExpr.div_expand n self rr with
          | some e => some (mkDiv e rl)
          | none => none))
    | .Unary .Neg rexpr =>
      (match SymbolExpr.mul_expand n self rexpr with
       | some e =>
         some (match negOpt n e with
               | some ee => ee
               | none => mkNeg e)
       | none =>
         (match SymbolExpr.mul_opt n self rexpr with
          | some e =>
            some (match negOpt n e with
                  | some ee => ee
                  | none => mkNeg e)
          | none => some (mkNeg (mkMul self rexpr))))
    | _ =>
      match self with
      | .Unary uop uex => Unary.mul_expand n uop uex rhs
      | .Binary bop bl br => Binary.mul_expand n bop bl br rhs
      | _ => none

/-- `SymbolExpr::div_expand`. -/
def SymbolExpr.div_expand : ℕ → SymbolExpr → SymbolExpr → Option SymbolExpr
  | 0, _, _ => none
  | n + 1, self, rhs =>
    match self with
    | .Unary uop uex => Unary.div_expand n uop uex rhs
    | .Binary bop bl br => Binary.div_expand n bop bl br rhs
    | _ => SymbolExpr.div_opt n self rhs

/-- `SymbolExpr::expand` with `Unary::expand` and `Binary::expand`
inlined at the dispatch. -/
def SymbolExpr.expand : ℕ → SymbolExpr → SymbolExpr
  | 0, e => e
  | n + 1, e =>
    match e with
    | .Symbol _ => e
    | .Value _ => e
    | .Unary uop uex =>
      let ex := SymbolExpr.expand n uex
      (match uop with
       | .Neg =>
         (match negOpt n ex with
          | some ne => ne
          | none => mkNeg ex)
       | _ => .Unary uop ex)
    | .Binary bop bl br =>
      (match bop with
       | .Mul =>
         (match SymbolExpr.mul_expand n bl br with
          | some e2 => e2
          | none => mkMul bl br)
       | .Div =>
         (match SymbolExpr.div_expand n bl br with
          | some e2 => e2
          | none => mkDiv bl br)
       | .Add =>
         (match SymbolExpr.add_opt n bl br with
          | some e2 => e2
          | none => mkAdd n bl br)
       | .Sub =>
         (match SymbolExpr.sub_opt n bl br with
          | some e2 => e2
          | none => mkSub n bl br)
       | .Pow => mkPow (SymbolExpr.expand n bl) (SymbolExpr.expand n br))

/-- `Symbol::add_opt`. -/
def Symbol.add_opt : ℕ → Symbol → SymbolExpr → Option SymbolExpr
  | 0, _, _ => none
  | n + 1, self, rhs =>
    match rhs with
    | .Value _ => some (mkAdd n rhs (.Symbol self))
    | .Symbol r =>
      if r.name = self.name then
        some (mkMul (.Value (.Int 2)) (.Symbol self))
      else if r.name < self.name then some (mkAdd n rhs (.Symbol self))
      else none
    | .Unary _ _ => none
    | .Binary rop rl rr =>
      match rop with
      | .Add =>
        (match Symbol.add_opt n self rl with
         | some e =>
           (match SymbolExpr.add_opt n e rr with
            | some ee => some ee
            | none => some (mkAdd n e rr))
         | none =>
           (match Symbol.add_opt n self rr with
            | some e =>
              (match SymbolExpr.add_opt n e rl with
               | some ee => some ee
               | none => some (mkAdd n e rl))
            | none => none))
      | .Sub =>
        (match Symbol.add_opt n self rl with
         | some e =>
           (match SymbolExpr.sub_opt n e rr with
            | some ee => some ee
            | none => some (mkSub n e rr))
         | none =>
           (match Symbol.sub_opt n self rr with
            | some e =>
              (match SymbolExpr.add_opt n e rl with
               | some ee => some ee
               | none => some (mkAdd n e rl))
            | none => none))
      | _ => none

/-- `Symbol::sub_opt` (`x - x` answers the integer-zero value node). -/
def Symbol.sub_opt : ℕ → Symbol → SymbolExpr → Option SymbolExpr
  | 0, _, _ => none
  | n + 1, self, rhs =>
    match rhs with
    | .Value r => some (mkAdd n (.Value r.neg) (.Symbol self))
    | .Symbol r =>
      if r.name = self.name then some (.Value (.Int 0))
      else if r.name < self.name then some (mkAdd n (mkNeg rhs) (.Symbol self))
      else none
    | .Unary _ _ => none
    | .Binary rop rl rr =>
      match rop with
      | .Add =>
        (match Symbol.sub_opt n self rl with
         | some e =>
           (match SymbolExpr.sub_opt n e rr with
            | some ee => some ee
            | none => some (mkSub n e rr))
         | none =>
           (match Symbol.sub_opt n self rr with
            | some e =>
              (match SymbolExpr.sub_opt n e rl with
               | some ee => some ee
               | none => some (mkSub n e rl))
            | none => none))
      | .Sub =>
        (match Symbol.sub_opt n self rl with
         | some e =>
           (match SymbolExpr.add_opt n e rr with
            | some ee => some ee
            | none => some (mkAdd n e rr))
         | none =>
           (match Symbol.add_opt n self rr with
            | some e =>
              (match SymbolExpr.sub_opt n e rl with
               | some ee => some ee
               | none => some (mkSub n e rl))
            | none => none))
      | _ => none

/-- `Symbol::mul_opt`. -/
def Symbol.mul_opt : ℕ → Symbol → SymbolExpr → Option SymbolExpr
  | 0, _, _ => none
  | n + 1, self, rhs =>
    match rhs with
    | .Value _ => some (mkMul rhs (.Symbol self))
    | .Symbol r =>
      if r.name < self.name then some (mkMul rhs (.Symbol self)) else none
    | .Unary .Neg rexpr =>
      (match rexpr with
       | .Value v => some (mkMul (.Value v.neg) (.Symbol self))
       | .Symbol s =>
         if s.name < self.name then some (mkNeg (mkMul rexpr (.Symbol self)))
         else some (mkNeg (mkMul (.Symbol self) rexpr))
       | .Binary _ _ _ =>
         (match Symbol.mul_opt n self rexpr with
          | some e =>
            some (match negOpt n e with
                  | some ee => ee
                  | none => mkNeg e)
          | none => none)
       | _ => none)
    | .Unary _ _ => none
    | _ => none

/-- `Symbol::div_opt` (division by a value becomes multiplication by
its reciprocal). -/
def Symbol.div_opt : ℕ → Symbol → SymbolExpr → Option SymbolExpr
  | 0, _, _ => none
  | _ + 1, self, rhs =>
    match rhs with
    | .Value r => some (mkMul (.Value r.rcp) (.Symbol self))
    | _ => none

/-- `Value::add_opt`. -/
def Value.add_opt : ℕ → Value → SymbolExpr → Option SymbolExpr
  | 0, _, _ => none
  | n + 1, self, rhs =>
    match rhs with
    | .Value r => some (.Value (self.add r))
    | .Unary _ _ => none
    | .Binary rop rl rr =>
      (match rop with
       | .Add =>
         (match Value.add_opt n self rl with
          | some e =>
            (match SymbolExpr.add_opt n e rr with
             | some ee => some ee
             | none => some (mkAdd n e rr))
          | none =>
            (match Value.add_opt n self rr with
             | some e =>
               (match SymbolExpr.add_opt n e rl with
                | some ee => some ee
                | none => some (mkAdd n e rl))
             | none => none))
       | .Sub =>
         (match Value.add_opt n self rl with
          | some e =>
            (match SymbolExpr.sub_opt n e rr with
             | some ee => some ee
             | none => some (mkSub n e rr))
          | none =>
            (match Value.sub_opt n self rr with
             | some e =>
               (match SymbolExpr.add_opt n e rl with
                | some ee => some ee
                | none => some (mkAdd n e rl))
             | none => none))
       | _ => none)
    | _ => none

/-- `Value::sub_opt`. -/
def Value.sub_opt : ℕ → Value → SymbolExpr → Option SymbolExpr
  | 0, _, _ => none
  | n + 1, self, rhs =>
    match rhs with
    | .Value r => some (.Value (self.sub r))
    | .Unary _ _ => none
    | .Binary rop rl rr =>
      (match rop with
       | .Add =>
         (match Value.sub_opt n self rl with
          | some e =>
            (match SymbolExpr.sub_opt n e rr with
             | some ee => some ee
             | none => some (mkSub n e rr))
          | none =>
            (match Value.sub_opt n self rr with
             | some e =>
               (match SymbolExpr.sub_opt n e rl with
                | some ee => some ee
                | none => some (mkSub n e rl))
             | none => none))
       | .Sub =>
         (match Value.sub_opt n self rl with
          | some e =>
            (match SymbolExpr.add_opt n e rr with
             | some ee => some ee
             | none => some (mkAdd n e rr))
          | none =>
            (match Value.add_opt n self rr with
             | some e =>
               (match SymbolExpr.sub_opt n e rl with
                | some ee => some ee
                | none => some (mkSub n e rl))
             | none => none))
       | _ => none)
    | _ => none

/-- `Value::mul_opt`. -/
def Value.mul_opt : ℕ → Value → SymbolExpr → Option SymbolExpr
  | 0, _, _ => none
  | n + 1, self, rhs =>
    match rhs with
    | .Value r => some (.Value (self.mul r))
    | .Unary .Neg rexpr =>
      let l := SymbolExpr.Value self.neg
      some (match SymbolExpr.mul_opt n l rexpr with
            | some e => e
            | none => mkMul l rexpr)
    | .Unary _ _ => none
    | .Binary .Mul rl rr =>
      (match Value.mul_opt n self rl with
       | some e =>
         (match SymbolExpr.mul_opt n e rr with
          | some ee => some ee
          | none => some (mkMul e rr))
       | none =>
         (match Value.mul_opt n self rr with
          | some e => some (mkMul e rl)
          | none => none))
    | .Binary .Div rl rr =>
      (match Value.mul_opt n self rl with
       | some e => some (mkDiv e rr)
       | none =>
         (match Value.div_opt n self rr with
          | some e => some (mkMul e rl)
          | none => none))
    | _ => none

/-- `Value::div_opt`. -/
def Value.div_opt : ℕ → Value → SymbolExpr → Option SymbolExpr
  | 0, _, _ => none
  | n + 1, self, rhs =>
    match rhs with
    | .Value r => some (.Value (self.div r))
    | .Unary .Neg rexpr =>
      (match Value.div_opt n self rexpr with
       | some e => some (mkNeg e)
       | none => none)
    | .Unary _ _ => none
    | .Binary rop rl rr =>
      (match rl with
       | .Value v =>
         (match rop with
          | .Mul => some (mkDiv (.Value (self.div v)) rr)
          | .Div => some (mkMul (.Value (self.div v)) rr)
          | _ => none)
       | _ =>
         (match rr with
          | .Value v =>
            (match rop with
             | .Mul => some (mkDiv (.Value (self.div v)) rl)
             | .Div => some (mkDiv (.Value (self.mul v)) rl)
             | _ => none)
          | _ => none))
    | _ => none

/-- `Unary::add_opt` (arguments are the fields `op`, `expr` of the
`Unary` struct, then the right operand). -/
def Unary.add_opt : ℕ → UnaryOps → SymbolExpr → SymbolExpr → Option SymbolExpr
  | 0, _, _, _ => none
  | n + 1, op, uexpr, rhs =>
    match rhs with
    | .Value r =>
      (match op with
       | .Neg =>
         (match uexpr with
          | .Value l => some (.Value (r.sub l))
          | _ =>
            (match SymbolExpr.sub_opt n (.Value r) uexpr with
             | some e => some e
             | none => some (mkSub n (.Value r) uexpr)))
       | _ => some (mkAdd n (.Value r) (.Unary op uexpr)))
    | .Symbol _ =>
      (match op with
       | .Neg =>
         (match SymbolExpr.sub_opt n uexpr rhs with
          | some e =>
            some (match negOpt n e with
                  | some ee => ee
                  | none => mkNeg e)
          | none => none)
       | _ => some (mkAdd n rhs (.Unary op uexpr)))
    | .Binary rop rl rr =>
      (match rop with
       | .Add =>
         (match Unary.add_opt n op uexpr rl with
          | some e =>
            (match SymbolExpr.add_opt n e rr with
             | some ee => some ee
             | none => some (mkAdd n e rr))
          | none =>
            (match Unary.add_opt n op uexpr rr with
             | some e =>
               (match SymbolExpr.add_opt n e rl with
                | some ee => some ee
                | none => some (mkAdd n e rl))
             | none => none))
       | .Sub =>
         (match Unary.add_opt n op uexpr rl with
          | some e =>
            (match SymbolExpr.sub_opt n e rr with
             | some ee => some ee
             | none => some (mkSub n e rr))
          | none =>
            (match Unary.sub_opt n op uexpr rr with
             | some e =>
               (match SymbolExpr.add_opt n e rl with
                | some ee => some ee
                | none => some (mkAdd n e rl))
             | none => none))
       | _ => none)
    | _ => none

/-- `Unary::sub_opt`. -/
def Unary.sub_opt : ℕ → UnaryOps → SymbolExpr → SymbolExpr → Option SymbolExpr
  | 0, _, _, _ => none
  | n + 1, op, uexpr, rhs =>
    match rhs with
    | .Value r => Unary.add_opt n op uexpr (.Value r.neg)
    | .Symbol _ =>
      (match op with
       | .Neg =>
         (match SymbolExpr.add_opt n uexpr rhs with
          | some e =>
            some (match negOpt n e with
                  | some ee => ee
                  | none => mkNeg e)
          | none => none)
       | _ => none)
    | .Binary rop rl rr =>
      (match rop with
       | .Add =>
         (match Unary.sub_opt n op uexpr rl with
          | some e =>
            (match SymbolExpr.sub_opt n e rr with
             | some ee => some ee
             | none => some (mkSub n e rr))
          | none =>
            (match Unary.sub_opt n op uexpr rr with
             | some e =>
               (match SymbolExpr.sub_opt n e rl with
                | some ee => some ee
                | none => some (mkSub n e rl))
             | none => none))
       | .Sub =>
         (match Unary.sub_opt n op uexpr rl with
          | some e =>
            (match SymbolExpr.add_opt n e rr with
             | some ee => some ee
             | none => some (mkAdd n e rr))
          | none =>
            (match Unary.add_opt n op uexpr rr with
             | some e =>
               (match SymbolExpr.sub_opt n e rl with
                | some ee => some ee
                | none => some (mkSub n e rl))
             | none => none))
       | _ => none)
    | _ => none

/-- `Unary::mul_opt` (negation is pushed through, absolute values
multiply under one `abs`). -/
def Unary.mul_opt : ℕ → UnaryOps → SymbolExpr → SymbolExpr → Option SymbolExpr
  | 0, _, _, _ => none
  | n + 1, op, uexpr, rhs =>
    match op with
    | .Neg =>
      (match SymbolExpr.mul_opt n uexpr rhs with
       | some e =>
         some (match negOpt n e with
               | some ee => ee
               | none => mkNeg e)
       | none => none)
    | .Abs =>
      (match rhs with
       | .Unary .Abs rexpr =>
         (match SymbolExpr.mul_opt n uexpr rexpr with
          | some e => some (.Unary .Abs e)
          | none => some (.Unary .Abs (mkMul uexpr rexpr)))
       | _ => none)
    | _ => none

/-- `Unary::mul_expand`. -/
def Unary.mul_expand : ℕ → UnaryOps → SymbolExpr → SymbolExpr → Option SymbolExpr
  | 0, _, _, _ => none
  | n + 1, op, uexpr, rhs =>
    match op with
    | .Neg =>
      (match SymbolExpr.mul_expand n uexpr rhs with
       | some e =>
         some (match negOpt n e with
               | some ee => ee
               | none => mkNeg e)
       | none =>
         (match SymbolExpr.mul_opt n uexpr rhs with
          | some e =>
            some (match negOpt n e with
                  | some ee => ee
                  | none => mkNeg e)
          | none => none))
    | _ => none

/-- `Unary::div_opt`. -/
def Unary.div_opt : ℕ → UnaryOps → SymbolExpr → SymbolExpr → Option SymbolExpr
  | 0, _, _, _ => none
  | n + 1, op, uexpr, rhs =>
    match op with
    | .Neg =>
      (match SymbolExpr.div_opt n uexpr rhs with
       | some e =>
         some (match negOpt n e with
               | some ee => ee
               | none => mkNeg e)
       | none => none)
    | .Abs =>
      (match rhs with
       | .Unary .Abs rexpr =>
         (match SymbolExpr.div_opt n uexpr rexpr with
          | some e => some (.Unary .Abs e)
          | none => some (.Unary .Abs (mkDiv uexpr rexpr)))
       | _ => none)
    | _ => none

/-- `Unary::div_expand`. -/
def Unary.div_expand : ℕ → UnaryOps → SymbolExpr → SymbolExpr → Option SymbolExpr
  | 0, _, _, _ => none
  | n + 1, op, uexpr, rhs =>
    match op with
    | .Neg =>
      (match SymbolExpr.div_expand n uexpr rhs with
       | some e =>
         some (match negOpt n e with
               | some ee => ee
               | none => mkNeg e)
       | none =>
         (match SymbolExpr.div_opt n uexpr rhs with
          | some e =>
            some (match negOpt n e with
                  | some ee => ee
                  | none => mkNeg e)
          | none => none))
    | _ => none

/-- `Binary::add_opt` (arguments are the fields `op`, `lhs`, `rhs` of
the `Binary` struct, then the right operand `arg`). -/
def Binary.add_opt : ℕ → BinaryOps → SymbolExpr → SymbolExpr → SymbolExpr → Option SymbolExpr
  | 0, _, _, _, _ => none
  | n + 1, op, lhs, rhs, arg =>
    let blkA : Option SymbolExpr :=
      match arg with
      | .Binary rop rl rr =>
        if op = rop then
          match op with
          | .Mul | .Div | .Pow =>
            let coeff : Option SymbolExpr :=
              match lhs, rl with
              | .Value rv, .Value lv =>
                if to_string (SymbolExpr.expand n rhs) = to_string (SymbolExpr.expand n rr) then
                  some (match SymbolExpr.mul_opt n (.Value (rv.add lv)) rhs with
                        | some e => e
                        | none => mkMul (.Value (rv.add lv)) rhs)
                else none
              | _, _ => none
            (coeff <|>
              (match negOpt n arg with
               | some e =>
                 if to_string (SymbolExpr.expand n (.Binary op lhs rhs))
                     = to_string (SymbolExpr.expand n e) then
                   some (.Value (.Int 0))
                 else none
               | none => none))
          | _ => none
        else none
      | _ => none
    let blkB : Option SymbolExpr :=
      match arg with
      | .Binary .Add rl rr =>
        (match Binary.add_opt n op lhs rhs rl with
         | some e =>
           some (match SymbolExpr.add_opt n e rr with
                 | some ee => ee
                 | none => mkAdd n e rr)
         | none => none) <|>
        (match Binary.add_opt n op lhs rhs rr with
         | some e =>
           some (match SymbolExpr.add_opt n e rl with
                 | some ee => ee
                 | none => mkAdd n e rl)
         | none => none)
      | .Binary .Sub rl rr =>
        (match Binary.add_opt n op lhs rhs rl with
         | some e =>
           some (match SymbolExpr.sub_opt n e rr with
                 | some ee => ee
                 | none => mkSub n e rr)
         | none => none) <|>
        (match Binary.sub_opt n op lhs rhs rr with
         | some e =>
           some (match SymbolExpr.add_opt n e rl with
                 | some ee => ee
                 | none => mkAdd n e rl)
         | none => none)
      | _ => none
    let blkC : Option SymbolExpr :=
      match op with
      | .Add =>
        (match SymbolExpr.add_opt n lhs arg with
         | some e =>
           some (match SymbolExpr.add_opt n e rhs with
                 | some ee => ee
                 | none => mkAdd n e rhs)
         | none => none) <|>
        (match SymbolExpr.add_opt n rhs arg with
         | some e =>
           some (match SymbolExpr.add_opt n lhs e with
                 | some ee => ee
                 | none => mkAdd n lhs e)
         | none => none)
      | .Sub =>
        (match SymbolExpr.add_opt n lhs arg with
         | some e =>
           some (match SymbolExpr.sub_opt n e rhs with
                 | some ee => ee
                 | none => mkSub n e rhs)
         | none => none) <|>
        (match SymbolExpr.sub_opt n arg rhs with
         | some e =>
           some (match SymbolExpr.add_opt n lhs e with
                 | some ee => ee
                 | none => mkAdd n lhs e)
         | none => none)
      | _ => none
    blkA <|> blkB <|> blkC

/-- `Binary::sub_opt`. -/
def Binary.sub_opt : ℕ → BinaryOps → SymbolExpr → SymbolExpr → SymbolExpr → Option SymbolExpr
  | 0, _, _, _, _ => none
  | n + 1, op, lhs, rhs, arg =>
    let blkA : Option SymbolExpr :=
      match arg with
      | .Binary rop rl rr =>
        if op = rop then
          match op with
          | .Mul | .Div | .Pow =>
            let coeff : Option SymbolExpr :=
              match lhs, rl with
              | .Value rv, .Value lv =>
                if to_string (SymbolExpr.expand n rhs) = to_string (SymbolExpr.expand n rr) then
                  some (match SymbolExpr.mul_opt n (.Value (rv.sub lv)) rhs with
                        | some e => e
                        | none => mkMul (.Value (rv.sub lv)) rhs)
                else none
              | _, _ => none
            (coeff <|>
              (if to_string (SymbolExpr.expand n (.Binary op lhs rhs))
                  = to_string (SymbolExpr.expand n arg) then
                 some (.Value (.Int 0))
               else none))
          | _ => none
        else none
      | _ => none
    let blkB : Option SymbolExpr :=
      match arg with
      | .Binary .Add rl rr =>
        (match Binary.sub_opt n op lhs rhs rl with
         | some e =>
           some (match SymbolExpr.sub_opt n e rr with
                 | some ee => ee
                 | none => mkSub n e rr)
         | none => none) <|>
        (match Binary.sub_opt n op lhs rhs rr with
         | some e =>
           some (match SymbolExpr.sub_opt n e rl with
                 | some ee => ee
                 | none => mkSub n e rl)
         | none => none)
      | .Binary .Sub rl rr =>
        (match Binary.sub_opt n op lhs rhs rl with
         | some e =>
           some (match SymbolExpr.add_opt n e rr with
                 | some ee => ee
                 | none => mkAdd n e rr)
         | none => none) <|>
        (match Binary.add_opt n op lhs rhs rr with
         | some e =>
           some (match SymbolExpr.sub_opt n e rl with
                 | some ee => ee
                 | none => mkSub n e rl)
         | none => none)
      | _ => none
    let blkC : Option SymbolExpr :=
      match op with
      | .Add =>
        (match SymbolExpr.sub_opt n lhs arg with
         | some e =>
           some (match SymbolExpr.add_opt n e rhs with
                 | some ee => ee
                 | none => mkAdd n e rhs)
         | none => none) <|>
        (match SymbolExpr.sub_opt n rhs arg with
         | some e =>
           some (match SymbolExpr.add_opt n lhs e with
                 | some ee => ee
                 | none => mkAdd n lhs e)
         | none => none)
      | .Sub =>
        (match SymbolExpr.sub_opt n lhs arg with
         | some e =>
           some (match SymbolExpr.sub_opt n e rhs with
                 | some ee => ee
                 | none => mkSub n e rhs)
         | none => none) <|>
        (match SymbolExpr.add_opt n rhs arg with
         | some e =>
           some (match SymbolExpr.sub_opt n lhs e with
                 | some ee => ee
                 | none => mkSub n lhs e)
         | none => none)
      | _ => none
    blkA <|> blkB <|> blkC

/-- `Binary::mul_opt` (the four positional cancellation matches for
products and quotients). -/
def Binary.mul_opt : ℕ → BinaryOps → SymbolExpr → SymbolExpr → SymbolExpr → Option SymbolExpr
  | 0, _, _, _, _ => none
  | n + 1, op, lhs, rhs, arg =>
    let blkA : Option SymbolExpr :=
      match arg with
      | .Binary .Mul rl rr =>
        (match Binary.mul_opt n op lhs rhs rl with
         | some e =>
           some (match SymbolExpr.mul_opt n e rr with
                 | some ee => ee
                 | none => mkMul e rr)
         | none => none) <|>
        (match Binary.mul_opt n op lhs rhs rr with
         | some e =>
           some (match SymbolExpr.mul_opt n e rl with
                 | some ee => ee
                 | none => mkMul e rl)
         | none => none)
      | .Binary .Div rl rr =>
        (match Binary.mul_opt n op lhs rhs rl with
         | some e =>
           some (match SymbolExpr.div_opt n e rr with
                 | some ee => ee
                 | none => mkDiv e rr)
         | none => none) <|>
        (match Binary.div_opt n op lhs rhs rr with
         | some e =>
           some (match SymbolExpr.mul_opt n e rl with
                 | some ee => ee
                 | none => mkMul e rl)
         | none => none)
      | _ => none
    let blkB : Option SymbolExpr :=
      match op with
      | .Mul =>
        (match SymbolExpr.mul_opt n lhs arg with
         | some e =>
           some (match SymbolExpr.mul_opt n e rhs with
                 | some ee => ee
                 | none => mkMul e rhs)
         | none => none) <|>
        (match SymbolExpr.mul_opt n rhs arg with
         | some e =>
           some (match SymbolExpr.mul_opt n lhs e with
                 | some ee => ee
                 | none => mkMul lhs e)
         | none => none)
      | .Div =>
        (match SymbolExpr.mul_opt n lhs arg with
         | some e =>
           some (match SymbolExpr.div_opt n e rhs with
                 | some ee => ee
                 | none => mkDiv e rhs)
         | none => none) <|>
        (match SymbolExpr.div_opt n arg rhs with
         | some e =>
           some (match SymbolExpr.mul_opt n lhs e with
                 | some ee => ee
                 | none => mkMul lhs e)
         | none => none)
      | _ => none
    blkA <|> blkB

/-- `Binary::div_opt`. -/
def Binary.div_opt : ℕ → BinaryOps → SymbolExpr → SymbolExpr → SymbolExpr → Option SymbolExpr
  | 0, _, _, _, _ => none
  | n + 1, op, lhs, rhs, arg =>
    let blkA : Option SymbolExpr :=
      match arg with
      | .Binary .Mul rl rr =>
        (match Binary.div_opt n op lhs rhs rl with
         | some e =>
           some (match SymbolExpr.div_opt n e rr with
                 | some ee => ee
                 | none => mkDiv e rr)
         | none => none) <|>
        (match Binary.div_opt n op lhs rhs rr with
         | some e =>
           some (match SymbolExpr.div_opt n e rl with
                 | some ee => ee
                 | none => mkDiv e rl)
         | none => none)
      | .Binary .Div rl rr =>
        (match Binary.mul_opt n op lhs rhs rr with
         | some e =>
           some (match SymbolExpr.div_opt n e rl with
                 | some ee => ee
                 | none => mkDiv e rl)
         | none => none) <|>
        (match Binary.div_opt n op lhs rhs rl with
         | some e =>
           some (match SymbolExpr.mul_opt n e rr with
                 | some ee => ee
                 | none => mkMul e rr)
         | none => none)
      | _ => none
    let blkB : Option SymbolExpr :=
      match op with
      | .Mul =>
        (match SymbolExpr.div_opt n lhs arg with
         | some e =>
           some (match SymbolExpr.mul_opt n e rhs with
                 | some ee => ee
                 | none => mkMul e rhs)
         | none => none) <|>
        (match SymbolExpr.div_opt n rhs arg with
         | some e =>
           some (match SymbolExpr.mul_opt n lhs e with
                 | some ee => ee
                 | none => mkMul lhs e)
         | none => none)
      | .Div =>
        (match SymbolExpr.mul_opt n rhs arg with
         | some e =>
           some (match SymbolExpr.div_opt n lhs e with
                 | some ee => ee
                 | none => mkDiv lhs e)
         | none => none) <|>
        (match SymbolExpr.div_opt n lhs arg with
         | some e =>
           some (match SymbolExpr.div_opt n e rhs with
                 | some ee => ee
                 | none => mkDiv e rhs)
         | none => none)
      | _ => none
    blkA <|> blkB

/-- `Binary::mul_expand` (distribution of a product over sums and
nested products/quotients). -/
def Binary.mul_expand : ℕ → BinaryOps → SymbolExpr → SymbolExpr → SymbolExpr → Option SymbolExpr
  | 0, _, _, _, _ => none
  | n + 1, op, lhs, rhs, arg =>
    match op with
    | .Add | .Sub =>
      let l := match SymbolExpr.mul_expand n lhs arg with
        | some e => e
        | none =>
          match SymbolExpr.mul_opt n lhs arg with
          | some e => e
          | none => mkMul lhs arg
      let r := match SymbolExpr.mul_expand n rhs arg with
        | some e => e
        | none =>
          match SymbolExpr.mul_opt n rhs arg with
          | some e => e
          | none => mkMul rhs arg
      (match op with
       | .Sub =>
         some (match SymbolExpr.sub_opt n l r with
               | some e => e
               | none => mkSub n l r)
       | _ =>
         some (match SymbolExpr.add_opt n l r with
               | some e => e
               | none => mkAdd n l r))
    | .Mul =>
      (match SymbolExpr.mul_expand n lhs arg with
       | some e =>
         (match SymbolExpr.mul_expand n e rhs with
          | some ee => some ee
          | none =>
            (match SymbolExpr.mul_opt n e rhs with
             | some ee => some ee
             | none => some (mkMul e rhs)))
       | none =>
         (match SymbolExpr.mul_expand n rhs arg with
          | some e =>
            (match SymbolExpr.mul_expand n lhs e with
             | some ee => some ee
             | none =>
               (match SymbolExpr.mul_opt n lhs e with
                | some ee => some ee
                | none => some (mkMul lhs e)))
          | none => none))
    | .Div =>
      (match SymbolExpr.div_expand n lhs arg with
       | some e => some (mkDiv e rhs)
       | none =>
         (match SymbolExpr.div_expand n rhs arg with
          | some e => some (mkDiv lhs e)
          | none => none))
    | _ => none

/-- `Binary::div_expand` (pushes a division into numerator sums). -/
def Binary.div_expand : ℕ → BinaryOps → SymbolExpr → SymbolExpr → SymbolExpr → Option SymbolExpr
  | 0, _, _, _, _ => none
  | n + 1, op, lhs, rhs, arg =>
    match op with
    | .Add | .Sub =>
      let l := match SymbolExpr.div_expand n lhs arg with
        | some e => e
        | none =>
          match SymbolExpr.div_opt n lhs arg with
          | some e => e
          | none => mkDiv lhs arg
      let r := match SymbolExpr.div_expand n rhs arg with
        | some e => e
        | none =>
          match SymbolExpr.div_opt n rhs arg with
          | some e => e
          | none => mkDiv rhs arg
      (match op with
       | .Sub =>
         some (match SymbolExpr.sub_opt n l r with
               | some e => e
               | none => mkSub n l r)
       | _ =>
         some (match SymbolExpr.add_opt n l r with
               | some e => e
               | none => mkAdd n l r))
    | _ => none

/-- `Add` for `&SymbolExpr`: the addition smart constructor. -/
def symAdd : ℕ → SymbolExpr → SymbolExpr → SymbolExpr
  | 0, l, r => mkAdd 0 l r
  | n + 1, l, r =>
    match SymbolExpr.add_opt n l r with
    | some e => e
    | none => mkAdd n l r

/-- `Sub` for `&SymbolExpr`: the subtraction smart constructor. -/
def symSub : ℕ → SymbolExpr → SymbolExpr → SymbolExpr
  | 0, l, r => mkSub 0 l r
  | n + 1, l, r =>
    match SymbolExpr.sub_opt n l r with
    | some e => e
    | none => mkSub n l r

/-- `Mul` for `&SymbolExpr`: the multiplication smart constructor. -/
def symMul : ℕ → SymbolExpr → SymbolExpr → SymbolExpr
  | 0, l, r => mkMul l r
  | n + 1, l, r =>
    match SymbolExpr.mul_opt n l r with
    | some e => e
    | none => mkMul l r

/-- `Div` for `&SymbolExpr`: the division smart constructor. -/
def symDiv : ℕ → SymbolExpr → SymbolExpr → SymbolExpr
  | 0, l, r => mkDiv l r
  | n + 1, l, r =>
    match SymbolExpr.div_opt n l r with
    | some e => e
    | none => mkDiv l r

/-- `PartialEq` for `SymbolExpr`: structural on leaves, otherwise the
expand-and-subtract test. -/
def exprEq : ℕ → SymbolExpr → SymbolExpr → Bool
  | 0, _, _ => false
  | n + 1, a, b =>
    match a, b with
    | .Symbol l, .Symbol r => l.name = r.name
    | .Value l, .Value r => Value.eqV l r
    | .Binary _ _ _, .Binary _ _ _ | .Binary _ _ _, .Unary _ _
    | .Unary _ _, .Binary _ _ _ | .Unary _ _, .Unary _ _ =>
      let ex_lhs := SymbolExpr.expand n a
      let ex_rhs := SymbolExpr.expand n b
      (match symSub n ex_lhs ex_rhs with
       | .Value v => v.is_zero
       | _ => false)
    | .Binary _ _ _, _ =>
      let ex_lhs := SymbolExpr.expand n a
      (match symSub n ex_lhs b with
       | .Value v => v.is_zero
       | _ => false)
    | _, .Binary _ _ _ =>
      let ex_rhs := SymbolExpr.expand n b
      (match symSub n a ex_rhs with
       | .Value v => v.is_zero
       | _ => false)
    | _, _ => false

end

end Simplifier

/-- `Neg` for `&SymbolExpr` (negation smart constructor). -/
def symNeg (n : ℕ) (e : SymbolExpr) : SymbolExpr :=
  match negOpt n e with
  | some x => x
  | none => mkNeg e

/-- `SymbolExpr::pow`: constant-folds only when both sides are value
nodes. -/
def SymbolExpr.pow (M : TMod) (l r : SymbolExpr) : SymbolExpr :=
  match l, r with
  | .Value lv, .Value rv => .Value (lv.pow M rv)
  | _, _ => mkPow l r

/-- `Symbol::bind` (the map models `HashMap::get`). -/
def Symbol.bindS (maps : String → Option Value) (s : Symbol) : SymbolExpr :=
  match maps s.name with
  | some v => .Value v
  | none => .Symbol s

/-- `Symbol::subs`. -/
def Symbol.subsS (maps : String → Option SymbolExpr) (s : Symbol) : SymbolExpr :=
  match maps s.name with
  | some v => v
  | none => .Symbol s

/-- `SymbolExpr::bind` with `Unary::bind` and `Binary::bind` inlined:
children are rebuilt, a unary re-folds through `eval(false)`, a binary
re-folds through the smart constructors. -/
def SymbolExpr.bind (M : TMod) (n : ℕ) (maps : String → Option SymEngine.Value) :
    SymbolExpr → SymbolExpr
  | .Symbol s => Symbol.bindS maps s
  | .Value v => .Value v
  | .Unary op e =>
    let ne := SymbolExpr.bind M n maps e
    (match eval M false (.Unary op ne) with
     | some v => .Value v
     | none => .Unary op ne)
  | .Binary op l r =>
    let nl := SymbolExpr.bind M n maps l
    let nr := SymbolExpr.bind M n maps r
    (match op with
     | .Add => symAdd M n nl nr
     | .Sub => symSub M n nl nr
     | .Mul => symMul M n nl nr
     | .Div => symDiv M n nl nr
     | .Pow => SymbolExpr.pow M nl nr)

/-- `SymbolExpr::subs` with `Unary::subs` and `Binary::subs` inlined. -/
def SymbolExpr.subs (M : TMod) (n : ℕ) (maps : String → Option SymbolExpr) :
    SymbolExpr → SymbolExpr
  | .Symbol s => Symbol.subsS maps s
  | .Value v => .Value v
  | .Unary op e =>
    let ne := SymbolExpr.subs M n maps e
    (match eval M false (.Unary op ne) with
     | some v => .Value v
     | none => .Unary op ne)
  | .Binary op l r =>
    let nl := SymbolExpr.subs M n maps l
    let nr := SymbolExpr.subs M n maps r
    (match op with
     | .Add => symAdd M n nl nr
     | .Sub => symSub M n nl nr
     | .Mul => symMul M n nl nr
     | .Div => symDiv M n nl nr
     | .Pow => SymbolExpr.pow M nl nr)

/-- `SymbolExpr::derivative` with `Unary::derivative` and
`Binary::derivative` inlined (the `pow` arm is transcribed verbatim:
when only the base contains the parameter it returns `v*u^(v-1)`
without a `du` factor, and when only the exponent contains it it
returns the raw product `u^v * log(u)` without recursing). -/
def derivative (M : TMod) : ℕ → SymbolExpr → SymbolExpr → SymbolExpr
  | 0, _, _ => .Value (.Real (F64.num 0))
  | n + 1, self, param =>
    if exprEq M n self param then .Value (.Real (F64.num 1))
    else
      match self with
      | .Value _ => .Value (.Real (F64.num 0))
      | .Symbol _ => .Value (.Real (F64.num 0))
      | .Unary op uex =>
        let expr_d := derivative M n uex param
        (match op with
         | .Abs => symDiv M n (symMul M n uex expr_d) (.Unary .Abs uex)
         | .Neg => .Unary .Neg expr_d
         | .Sin => symMul M n (.Unary .Cos uex) expr_d
         | .Asin =>
           let d := symSub M n (.Value (.Real (F64.num 1))) (symMul M n uex uex)
           let lhs := match d with
             | .Value v => SymbolExpr.Value (v.sqrt M)
             | _ => .Binary .Pow d (.Value (.Real (F64.num (1 / 2))))
           symMul M n lhs expr_d
         | .Cos => symMul M n (symNeg n (.Unary .Sin uex)) expr_d
         | .Acos =>
           let d := symSub M n (.Value (.Real (F64.num 1))) (symMul M n uex uex)
           let lhs := match d with
             | .Value v => SymbolExpr.Value (v.sqrt M)
             | _ => .Binary .Pow d (.Value (.Real (F64.num (1 / 2))))
           symMul M n (symNeg n lhs) expr_d
         | .Tan =>
           let d := SymbolExpr.Unary .Cos uex
           symDiv M n (symDiv M n expr_d d) d
         | .Atan =>
           let d := symAdd M n (.Value (.Real (F64.num 1))) (symMul M n uex uex)
           symDiv M n expr_d d
         | .Exp => symMul M n (.Unary .Exp uex) expr_d
         | .Log => symDiv M n expr_d uex
         | .Sign => .Unary .Sign expr_d)
      | .Binary op bl br =>
        (match op with
         | .Add => symAdd M n (derivative M n bl param) (derivative M n br param)
         | .Sub => symSub M n (derivative M n bl param) (derivative M n br param)
         | .Mul =>
           symAdd M n (symMul M n (derivative M n bl param) br)
             (symMul M n bl (derivative M n br param))
         | .Div =>
           symDiv M n
             (symDiv M n
               (symSub M n (symMul M n (derivative M n bl param) br)
                 (symMul M n bl (derivative M n br param)))
               br)
             br
         | .Pow =>
           if !(has_symbol bl (to_string param)) then
             if !(has_symbol br (to_string param)) then .Value (.Real (F64.num 0))
             else mkMul (mkPow bl br) (.Unary .Log bl)
           else if !(has_symbol br (to_string param)) then
             let nr := symSub M n br (.Value (.Real (F64.num 1)))
             symMul M n br (.Binary .Pow bl nr)
           else
             let new_expr := SymbolExpr.Unary .Exp (.Binary .Mul (.Unary .Log bl) br)
             derivative M n new_expr param)

/-- `From<Complex64>` for `Value`: collapses a negligible imaginary
part to the real variant. -/
def Value.fromComplex (v : ComplexF) : Value :=
  if epsOO v.im then .Real v.re else .Complex v

/-- The wrapper type (`struct ParameterExpression`). -/
structure ParameterExpression where
  expr_ : SymbolExpr
deriving DecidableEq, Repr

/-- `ParameterExpression::real`. -/
def ParameterExpression.real (M : TMod) (p : ParameterExpression) : Option F64 :=
  realAcc M p.expr_

/-- `ParameterExpression::imag`. -/
def ParameterExpression.imag (M : TMod) (p : ParameterExpression) : Option F64 :=
  imagAcc M p.expr_

/-- `ParameterExpression::complex`. -/
def ParameterExpression.complex (M : TMod) (p : ParameterExpression) : Option ComplexF :=
  complexAcc M p.expr_

/-- `From<Complex64>` for `ParameterExpression`: stores the complex
variant directly, without the ε collapse that `From<Complex64>` for
`Value` performs. -/
def ParameterExpression.fromComplex (v : ComplexF) : ParameterExpression :=
  ⟨.Value (.Complex v)⟩

/-- The unary-name table of `parse_unary`: the only function names the
parser accepts (`"abs"` and `"sign"` are absent and fall to the
`unsupported unary operation found` error). -/
def parseUnaryName : String → Option UnaryOps
  | "sin" => some .Sin
  | "asin" => some .Asin
  | "cos" => some .Cos
  | "acos" => some .Acos
  | "tan" => some .Tan
  | "atan" => some .Atan
  | "log" => some .Log
  | "exp" => some .Exp
  | _ => none

/-- The node `parse_unary` produces from an accepted name and a parsed
argument. -/
def parseUnaryApply (v : String) (arg : SymbolExpr) : Option SymbolExpr :=
  (parseUnaryName v).map (fun op => .Unary op arg)

/-- The closure of `parse_imaginary_value`: an imaginary literal `vi`
becomes `Value::Complex(c64(0.0, v))` with no ε collapse. -/
def parseImaginaryLit (v : F64) : SymbolExpr :=
  .Value (.Complex ⟨F64.num 0, v⟩)

/-- A value node whose complex variant keeps a non-negligible
imaginary part (the construction invariant claimed by the spec). -/
def complexCollapsed : Value → Bool
  | .Complex c => !(epsOO c.im)
  | _ => true

/-- Test for a `Value` node of the expression tree. -/
def isValueNode : SymbolExpr → Bool
  | .Value _ => true
  | _ => false

/-! ## Claims -/

/-- C10: dividing a zero expression by anything through the division
smart constructor returns the zero numerator itself, because the
numerator-is-zero test precedes the divisor-is-zero test in
`div_opt`; in particular `0 / 0` returns `0`, not the infinity
sentinel. -/
theorem c10_zero_over_zero (M : TMod) (fuel : ℕ) (e z : SymbolExpr)
    (h : is_zero M e = true) :
    symDiv M (fuel + 2) e z = e := by
  simp [symDiv, SymbolExpr.div_opt, h]

/-- C10 witness: `Value::Int(0) / Value::Int(0)` concretely returns
the zero numerator. -/
theorem c10_zero_over_zero_witness :
    is_zero TM0 (.Value (.Int 0)) = true ∧
      symDiv TM0 2 (.Value (.Int 0)) (.Value (.Int 0)) = .Value (.Int 0) :=
  ⟨by with_unfolding_all decide, c10_zero_over_zero TM0 0 (.Value (.Int 0)) (.Value (.Int 0)) (by with_unfolding_all decide)⟩

/-- C1 counterexample: the claim fails as stated.  `0 / 0` through
the division smart constructor returns `Value::Int(0)`, not
`Value::Real(+inf)`; and the value-level division `Real(-1)/Real(0)`
returns negative infinity, not positive infinity. -/
theorem c1_div_zero_counterexample :
    symDiv TM0 2 (.Value (.Int 0)) (.Value (.Int 0)) = .Value (.Int 0) ∧
      symDiv TM0 2 (.Value (.Int 0)) (.Value (.Int 0)) ≠ .Value (.Real F64.inf) ∧
      Value.div (.Real (F64.num (-1))) (.Real (F64.num 0)) = .Real F64.ninf ∧
      Value.div (.Real (F64.num (-1))) (.Real (F64.num 0)) ≠ .Real F64.inf := by
  refine ⟨by with_unfolding_all decide, by with_unfolding_all decide, by with_unfolding_all decide, by with_unfolding_all decide⟩

/-- C1 amended: for every expression `e` that does not evaluate to
zero, dividing by a `z` that evaluates to zero raises no error and
returns `Value::Real(+inf)`; at the value level the integer-numerator
branch returns `Real(+inf)` for any divisor equal to zero. -/
theorem c1_div_zero_amended (M : TMod) (fuel : ℕ) (e z : SymbolExpr)
    (l : ℤ) (r : Value)
    (h1 : is_zero M e = false) (h2 : is_zero M z = true)
    (h3 : Value.eqF r (F64.num 0) = true) :
    symDiv M (fuel + 2) e z = .Value (.Real F64.inf) ∧
      Value.div (.Int l) r = .Real F64.inf := by
  constructor
  · simp [symDiv, SymbolExpr.div_opt, h1, h2]
  · simp [Value.div, h3]

/-- C1 witness: a symbol divided by the integer-zero value node folds
to the real positive-infinity sentinel, and `Int(1)` divided by
`Real(0)` at the value level is `Real(+inf)`. -/
theorem c1_div_zero_witness :
    is_zero TM0 (.Symbol ⟨"x"⟩) = false ∧
      is_zero TM0 (.Value (.Int 0)) = true ∧
      Value.eqF (.Real (F64.num 0)) (F64.num 0) = true ∧
      (symDiv TM0 2 (.Symbol ⟨"x"⟩) (.Value (.Int 0)) = .Value (.Real F64.inf) ∧
        Value.div (.Int 1) (.Real (F64.num 0)) = .Real F64.inf) :=
  ⟨by with_unfolding_all decide, by with_unfolding_all decide, by with_unfolding_all decide,
    c1_div_zero_amended TM0 0 (.Symbol ⟨"x"⟩) (.Value (.Int 0)) 1
      (.Real (F64.num 0)) (by with_unfolding_all decide) (by with_unfolding_all decide) (by with_unfolding_all decide)⟩

/-- C5 counterexample: the parser's unary-name table rejects `abs`
and `sign`, so `abs(x)` and `sign(x)` do not produce unary nodes. -/
theorem c5_unary_names_counterexample :
    parseUnaryName "abs" = none ∧ parseUnaryName "sign" = none ∧
      parseUnaryApply "abs" (.Symbol ⟨"x"⟩) = none ∧
      parseUnaryApply "sign" (.Symbol ⟨"x"⟩) = none := by
  refine ⟨rfl, rfl, rfl, rfl⟩

/-- C5 amended: the parser accepts function-call syntax for exactly
the eight named unaries `sin`, `asin`, `cos`, `acos`, `tan`, `atan`,
`exp`, `log`, producing the corresponding unary node, and rejects
`abs` and `sign` as unsupported unary names. -/
theorem c5_unary_names_amended (arg : SymbolExpr) :
    parseUnaryApply "sin" arg = some (.Unary .Sin arg) ∧
      parseUnaryApply "asin" arg = some (.Unary .Asin arg) ∧
      parseUnaryApply "cos" arg = some (.Unary .Cos arg) ∧
      parseUnaryApply "acos" arg = some (.Unary .Acos arg) ∧
      parseUnaryApply "tan" arg = some (.Unary .Tan arg) ∧
      parseUnaryApply "atan" arg = some (.Unary .Atan arg) ∧
      parseUnaryApply "exp" arg = some (.Unary .Exp arg) ∧
      parseUnaryApply "log" arg = some (.Unary .Log arg) ∧
      parseUnaryApply "abs" arg = none ∧
      parseUnaryApply "sign" arg = none :=
  ⟨rfl, rfl, rfl, rfl, rfl, rfl, rfl, rfl, rfl, rfl⟩

/-- C6: `complex()` on an expression evaluating to `Real(2)` answers
`0+0i` — the `Real`/`Int` arms of `SymbolExpr::complex` discard the
evaluated value — while `real()` on the same expression answers `2`;
the wrapper delegates and inherits the same behavior. -/
theorem c6_complex_discards_value :
    complexAcc TM0 (.Value (.Real (F64.num 2))) = some ⟨F64.num 0, F64.num 0⟩ ∧
      realAcc TM0 (.Value (.Real (F64.num 2))) = some (F64.num 2) ∧
      ParameterExpression.complex TM0 ⟨.Value (.Real (F64.num 2))⟩
        = some ⟨F64.num 0, F64.num 0⟩ ∧
      (⟨F64.num 0, F64.num 0⟩ : ComplexF) ≠ ⟨F64.num 2, F64.num 0⟩ := by
  refine ⟨by with_unfolding_all decide, by with_unfolding_all decide, by with_unfolding_all decide, by with_unfolding_all decide⟩

/-- C7 counterexample: adding the two `i64` values `2^63 - 1` and `1`
wraps to `-2^63` — an integer result that is negative although both
operands are positive — instead of propagating an IEEE-754 overflow,
`NaN`, or infinity. -/
theorem c7_int_overflow_counterexample :
    Value.add (.Int (2 ^ 63 - 1)) (.Int 1) = .Int (-(2 ^ 63)) ∧
      Value.is_negative (Value.add (.Int (2 ^ 63 - 1)) (.Int 1)) = true ∧
      Value.add (.Int (2 ^ 63 - 1)) (.Int 1) ≠ .Real F64.inf ∧
      Value.add (.Int (2 ^ 63 - 1)) (.Int 1) ≠ .Real F64.nan := by
  refine ⟨by decide, by decide, by decide, by decide⟩

/-- C2 counterexample: for `x = sin(a)` the subtraction `x - x`
through the subtraction smart constructor does not collapse at all —
it stays a `Binary Sub` node and renders as `sin(a) - sin(a)`, not
`"0"`. -/
theorem c2_sub_self_counterexample :
    symSub TM0 8 (.Unary .Sin (.Symbol ⟨"a"⟩)) (.Unary .Sin (.Symbol ⟨"a"⟩))
        = .Binary .Sub (.Unary .Sin (.Symbol ⟨"a"⟩)) (.Unary .Sin (.Symbol ⟨"a"⟩)) ∧
      symSub TM0 8 (.Unary .Sin (.Symbol ⟨"a"⟩)) (.Unary .Sin (.Symbol ⟨"a"⟩))
        ≠ .Value (.Int 0) ∧
      to_string (symSub TM0 8 (.Unary .Sin (.Symbol ⟨"a"⟩)) (.Unary .Sin (.Symbol ⟨"a"⟩)))
        = "sin(a) - sin(a)" ∧
      to_string (symSub TM0 8 (.Unary .Sin (.Symbol ⟨"a"⟩)) (.Unary .Sin (.Symbol ⟨"a"⟩)))
        ≠ "0" := by
  refine ⟨by with_unfolding_all decide, by with_unfolding_all decide,
    by with_unfolding_all decide, by with_unfolding_all decide⟩

/-- Unfolding step for `symSub` when the optimizer finds an answer. -/
theorem symSub_some (M : TMod) (n : ℕ) (l r e : SymbolExpr)
    (h : SymbolExpr.sub_opt M n l r = some e) : symSub M (n + 1) l r = e := by
  rw [show symSub M (n + 1) l r
      = (match SymbolExpr.sub_opt M n l r with
         | some x => x
         | none => mkSub n l r) from rfl, h]

/-- Unfolding step for `symAdd` when the optimizer finds an answer. -/
theorem symAdd_some (M : TMod) (n : ℕ) (l r e : SymbolExpr)
    (h : SymbolExpr.add_opt M n l r = some e) : symAdd M (n + 1) l r = e := by
  rw [show symAdd M (n + 1) l r
      = (match SymbolExpr.add_opt M n l r with
         | some x => x
         | none => mkAdd n l r) from rfl, h]

/-- Unfolding step for `symAdd` when the optimizer finds nothing. -/
theorem symAdd_none (M : TMod) (n : ℕ) (l r : SymbolExpr)
    (h : SymbolExpr.add_opt M n l r = none) : symAdd M (n + 1) l r = mkAdd n l r := by
  rw [show symAdd M (n + 1) l r
      = (match SymbolExpr.add_opt M n l r with
         | some x => x
         | none => mkAdd n l r) from rfl, h]

/-- C2 amended: for every symbol `x`, the subtraction `x - x` built
through the subtraction smart constructor collapses to the
integer-zero value node and renders as `"0"`. -/
theorem c2_sub_self_symbol (M : TMod) (fuel : ℕ) (s : String) :
    symSub M (fuel + 3) (.Symbol ⟨s⟩) (.Symbol ⟨s⟩) = .Value (.Int 0) ∧
      to_string (symSub M (fuel + 3) (.Symbol ⟨s⟩) (.Symbol ⟨s⟩)) = "0" := by
  have step2 : Symbol.sub_opt M (fuel + 1) ⟨s⟩ (.Symbol ⟨s⟩)
      = some (.Value (.Int 0)) := by
    rw [show Symbol.sub_opt M (fuel + 1) ⟨s⟩ (.Symbol ⟨s⟩)
        = (if s = s then some (SymbolExpr.Value (Value.Int 0))
           else if s < s then
             some (mkAdd fuel (mkNeg (.Symbol ⟨s⟩)) (.Symbol ⟨s⟩))
           else none) from rfl]
    rw [if_pos rfl]
  have main : SymbolExpr.sub_opt M (fuel + 2) (.Symbol ⟨s⟩) (.Symbol ⟨s⟩)
      = some (.Value (.Int 0)) := by
    rw [show SymbolExpr.sub_opt M (fuel + 2) (.Symbol ⟨s⟩) (.Symbol ⟨s⟩)
        = Symbol.sub_opt M (fuel + 1) ⟨s⟩ (.Symbol ⟨s⟩) from rfl, step2]
  have h : symSub M (fuel + 3) (.Symbol ⟨s⟩) (.Symbol ⟨s⟩) = .Value (.Int 0) :=
    symSub_some M (fuel + 2) _ _ _ main
  exact ⟨h, by rw [h]; with_unfolding_all rfl⟩

/-- C3 counterexample: with `x = a*b` and `y = c*d` (all symbols, the
products built by the multiplication smart constructor), the sums
`x + y` and `y + x` render differently — the binary-vs-binary
comparator ties on equal lengths and no swap happens. -/
theorem c3_add_commutes_counterexample :
    to_string (symAdd TM0 8 (symMul TM0 8 (.Symbol ⟨"a"⟩) (.Symbol ⟨"b"⟩))
        (symMul TM0 8 (.Symbol ⟨"c"⟩) (.Symbol ⟨"d"⟩))) = "a*b + c*d" ∧
      to_string (symAdd TM0 8 (symMul TM0 8 (.Symbol ⟨"c"⟩) (.Symbol ⟨"d"⟩))
        (symMul TM0 8 (.Symbol ⟨"a"⟩) (.Symbol ⟨"b"⟩))) = "c*d + a*b" ∧
      to_string (symAdd TM0 8 (symMul TM0 8 (.Symbol ⟨"a"⟩) (.Symbol ⟨"b"⟩))
          (symMul TM0 8 (.Symbol ⟨"c"⟩) (.Symbol ⟨"d"⟩)))
        ≠ to_string (symAdd TM0 8 (symMul TM0 8 (.Symbol ⟨"c"⟩) (.Symbol ⟨"d"⟩))
          (symMul TM0 8 (.Symbol ⟨"a"⟩) (.Symbol ⟨"b"⟩))) := by
  refine ⟨by with_unfolding_all decide, by with_unfolding_all decide,
    by with_unfolding_all decide⟩

/-- C3 amended: for symbol operands the addition smart constructor is
commutative on the rendered string — symbol names are ordered by the
deterministic string comparator and equal names collapse to `2*x`
either way. -/
theorem c3_add_commutes_symbols (M : TMod) (fuel : ℕ) (x y : String) :
    to_string (symAdd M (fuel + 3) (.Symbol ⟨x⟩) (.Symbol ⟨y⟩))
      = to_string (symAdd M (fuel + 3) (.Symbol ⟨y⟩) (.Symbol ⟨x⟩)) := by
  have key : ∀ a b : String, a < b →
      symAdd M (fuel + 3) (.Symbol ⟨a⟩) (.Symbol ⟨b⟩)
          = .Binary .Add (.Symbol ⟨a⟩) (.Symbol ⟨b⟩) ∧
        symAdd M (fuel + 3) (.Symbol ⟨b⟩) (.Symbol ⟨a⟩)
          = .Binary .Add (.Symbol ⟨a⟩) (.Symbol ⟨b⟩) := by
    intro a b hab
    constructor
    · have sopt : Symbol.add_opt M (fuel + 1) ⟨a⟩ (.Symbol ⟨b⟩) = none := by
        rw [show Symbol.add_opt M (fuel + 1) ⟨a⟩ (.Symbol ⟨b⟩)
            = (if b = a then some (mkMul (.Value (.Int 2)) (.Symbol ⟨a⟩))
               else if b < a then
                 some (mkAdd fuel (.Symbol ⟨b⟩) (.Symbol ⟨a⟩))
               else none) from rfl]
        rw [if_neg hab.ne', if_neg (lt_asymm hab)]
      have main : SymbolExpr.add_opt M (fuel + 2) (.Symbol ⟨a⟩) (.Symbol ⟨b⟩) = none := by
        rw [show SymbolExpr.add_opt M (fuel + 2) (.Symbol ⟨a⟩) (.Symbol ⟨b⟩)
            = Symbol.add_opt M (fuel + 1) ⟨a⟩ (.Symbol ⟨b⟩) from rfl, sopt]
      exact (symAdd_none M (fuel + 2) _ _ main).trans rfl
    · have sopt : Symbol.add_opt M (fuel + 1) ⟨b⟩ (.Symbol ⟨a⟩)
          = some (mkAdd fuel (.Symbol ⟨a⟩) (.Symbol ⟨b⟩)) := by
        rw [show Symbol.add_opt M (fuel + 1) ⟨b⟩ (.Symbol ⟨a⟩)
            = (if a = b then some (mkMul (.Value (.Int 2)) (.Symbol ⟨b⟩))
               else if a < b then
                 some (mkAdd fuel (.Symbol ⟨a⟩) (.Symbol ⟨b⟩))
               else none) from rfl]
        rw [if_neg hab.ne, if_pos hab]
      have main : SymbolExpr.add_opt M (fuel + 2) (.Symbol ⟨b⟩) (.Symbol ⟨a⟩)
          = some (mkAdd fuel (.Symbol ⟨a⟩) (.Symbol ⟨b⟩)) := by
        rw [show SymbolExpr.add_opt M (fuel + 2) (.Symbol ⟨b⟩) (.Symbol ⟨a⟩)
            = Symbol.add_opt M (fuel + 1) ⟨b⟩ (.Symbol ⟨a⟩) from rfl, sopt]
      exact (symAdd_some M (fuel + 2) _ _ _ main).trans rfl
  rcases lt_trichotomy x y with h | h | h
  · rcases key x y h with ⟨h1, h2⟩
    rw [h1, h2]
  · subst h; rfl
  · rcases key y x h with ⟨h1, h2⟩
    rw [h1, h2]

/-- C4: the `pow` arm of the derivative omits the chain-rule factors.
For `pow(2*x, 3)` with respect to `x` (base contains the parameter)
the code answers `3*(2*x)**2` with no `du = 2` factor; for
`pow(2, 2*x)` (exponent contains the parameter) it answers the raw
product `2**(2*x) * log(2)` with no `dv = 2` factor and no
recursion. -/
theorem c4_pow_derivative_eval :
    derivative TM0 30
        (.Binary .Pow (.Binary .Mul (.Value (.Int 2)) (.Symbol ⟨"x"⟩)) (.Value (.Int 3)))
        (.Symbol ⟨"x"⟩)
      = .Binary .Mul (.Value (.Int 3))
          (.Binary .Pow (.Binary .Mul (.Value (.Int 2)) (.Symbol ⟨"x"⟩))
            (.Value (.Real (F64.num 2)))) ∧
    derivative TM0 30
        (.Binary .Pow (.Value (.Int 2)) (.Binary .Mul (.Value (.Int 2)) (.Symbol ⟨"x"⟩)))
        (.Symbol ⟨"x"⟩)
      = .Binary .Mul
          (.Binary .Pow (.Value (.Int 2)) (.Binary .Mul (.Value (.Int 2)) (.Symbol ⟨"x"⟩)))
          (.Unary .Log (.Value (.Int 2))) := by
  refine ⟨by with_unfolding_all decide, by with_unfolding_all decide⟩

/-- C8 counterexample: the wrapper's `From<Complex64>` stores
`Complex(1+0i)` — imaginary part `0`, inside the ε band — without
collapsing it to the real variant, and the parser's imaginary-literal
closure builds `Complex(0+0i)` the same way. -/
theorem c8_invariant_counterexample :
    ParameterExpression.fromComplex ⟨F64.num 1, F64.num 0⟩
        = ⟨.Value (.Complex ⟨F64.num 1, F64.num 0⟩)⟩ ∧
      complexCollapsed (.Complex ⟨F64.num 1, F64.num 0⟩) = false ∧
      parseImaginaryLit (F64.num 0) = .Value (.Complex ⟨F64.num 0, F64.num 0⟩) ∧
      complexCollapsed (.Complex ⟨F64.num 0, F64.num 0⟩) = false := by
  refine ⟨rfl, by with_unfolding_all decide, rfl, by with_unfolding_all decide⟩

/-- Every value that passes through the `opt_complex` fold satisfies
the collapse invariant. -/
theorem collapse_keeps_invariant (t : Value) :
    complexCollapsed (Value.collapse t) = true := by
  cases t with
  | Real f => rfl
  | Int i => rfl
  | Complex c =>
    cases h : epsOO c.im with
    | true => simp [Value.collapse, Value.opt_complex, h, complexCollapsed]
    | false => simp [Value.collapse, Value.opt_complex, h, complexCollapsed]

/-- C8 amended: every value produced by a value-level arithmetic fold
(add, sub, mul, div) or by `From<Complex64>` for `Value` satisfies
the collapse invariant — a complex variant keeps an imaginary part of
magnitude at least ε; but the parser's imaginary literal and the
wrapper's `From<Complex64>` construct the complex variant directly,
without the collapse. -/
theorem c8_invariant_amended (a b : Value) (c : ComplexF) :
    complexCollapsed (Value.add a b) = true ∧
      complexCollapsed (Value.sub a b) = true ∧
      complexCollapsed (Value.mul a b) = true ∧
      complexCollapsed (Value.div a b) = true ∧
      complexCollapsed (Value.fromComplex c) = true := by
  refine ⟨?_, ?_, ?_, ?_, ?_⟩
  · simp only [Value.add]
    exact collapse_keeps_invariant _
  · simp only [Value.sub]
    exact collapse_keeps_invariant _
  · simp only [Value.mul]
    exact collapse_keeps_invariant _
  · cases a with
    | Real f =>
      simp only [Value.div]
      exact collapse_keeps_invariant _
    | Int i =>
      simp only [Value.div]
      cases h : Value.eqF b (F64.num 0) with
      | true => simp [h, complexCollapsed]
      | false => simp only [h, Bool.false_eq_true, if_false]; exact collapse_keeps_invariant _
    | Complex cc =>
      simp only [Value.div]
      exact collapse_keeps_invariant _
  · cases h : epsOO c.im with
    | true => simp [Value.fromComplex, h, complexCollapsed]
    | false => simp [Value.fromComplex, h, complexCollapsed]

/-- C9 counterexample: binding `{x ↦ Int(0), y ↦ Int(5)}` (images are
plain values, so no image contains a mapped symbol) into `x - y` once
gives the un-folded node `Neg(Value(5))`; binding a second time folds
it to `Value(-5)`, a different tree — bind is not idempotent. -/
theorem c9_bind_not_idempotent :
    SymbolExpr.bind TM0 8
        (fun s => if s = "x" then some (.Int 0) else if s = "y" then some (.Int 5) else none)
        (.Binary .Sub (.Symbol ⟨"x"⟩) (.Symbol ⟨"y"⟩))
      = .Unary .Neg (.Value (.Int 5)) ∧
    SymbolExpr.bind TM0 8
        (fun s => if s = "x" then some (.Int 0) else if s = "y" then some (.Int 5) else none)
        (SymbolExpr.bind TM0 8
          (fun s => if s = "x" then some (.Int 0) else if s = "y" then some (.Int 5) else none)
          (.Binary .Sub (.Symbol ⟨"x"⟩) (.Symbol ⟨"y"⟩)))
      = .Value (.Int (-5)) ∧
    SymbolExpr.bind TM0 8
        (fun s => if s = "x" then some (.Int 0) else if s = "y" then some (.Int 5) else none)
        (SymbolExpr.bind TM0 8
          (fun s => if s = "x" then some (.Int 0) else if s = "y" then some (.Int 5) else none)
          (.Binary .Sub (.Symbol ⟨"x"⟩) (.Symbol ⟨"y"⟩)))
      ≠ SymbolExpr.bind TM0 8
        (fun s => if s = "x" then some (.Int 0) else if s = "y" then some (.Int 5) else none)
        (.Binary .Sub (.Symbol ⟨"x"⟩) (.Symbol ⟨"y"⟩)) := by
  refine ⟨by with_unfolding_all decide, by with_unfolding_all decide,
    by with_unfolding_all decide⟩

/-- C9 amended: `bind` and `subs` are idempotent whenever the first
application yields a value node (in particular whenever the map binds
every symbol and the tree folds to a value); otherwise a second
application may simplify the tree further. -/
theorem c9_idempotent_on_value_results (M : TMod) (n1 n2 : ℕ)
    (mb : String → Option Value) (ms : String → Option SymbolExpr) (e : SymbolExpr) :
    (isValueNode (SymbolExpr.bind M n1 mb e) = true →
      SymbolExpr.bind M n2 mb (SymbolExpr.bind M n1 mb e) = SymbolExpr.bind M n1 mb e) ∧
    (isValueNode (SymbolExpr.subs M n1 ms e) = true →
      SymbolExpr.subs M n2 ms (SymbolExpr.subs M n1 ms e) = SymbolExpr.subs M n1 ms e) := by
  constructor
  · intro h
    cases hv : SymbolExpr.bind M n1 mb e with
    | Value v => rfl
    | Symbol s => rw [hv] at h; simp [isValueNode] at h
    | Unary op e2 => rw [hv] at h; simp [isValueNode] at h
    | Binary op l r => rw [hv] at h; simp [isValueNode] at h
  · intro h
    cases hv : SymbolExpr.subs M n1 ms e with
    | Value v => rfl
    | Symbol s => rw [hv] at h; simp [isValueNode] at h
    | Unary op e2 => rw [hv] at h; simp [isValueNode] at h
    | Binary op l r => rw [hv] at h; simp [isValueNode] at h

/-- C9 witness: a fully bound symbol folds to a value node and both
substitutions are then idempotent at that point. -/
theorem c9_idempotent_witness :
    SymbolExpr.bind TM0 5 (fun s => if s = "x" then some (.Int 3) else none)
        (SymbolExpr.bind TM0 5 (fun s => if s = "x" then some (.Int 3) else none)
          (.Symbol ⟨"x"⟩))
      = SymbolExpr.bind TM0 5 (fun s => if s = "x" then some (.Int 3) else none)
        (.Symbol ⟨"x"⟩) ∧
    SymbolExpr.subs TM0 5 (fun s => if s = "x" then some (.Value (.Int 3)) else none)
        (SymbolExpr.subs TM0 5 (fun s => if s = "x" then some (.Value (.Int 3)) else none)
          (.Symbol ⟨"x"⟩))
      = SymbolExpr.subs TM0 5 (fun s => if s = "x" then some (.Value (.Int 3)) else none)
        (.Symbol ⟨"x"⟩) :=
  ⟨(c9_idempotent_on_value_results TM0 5 5
      (fun s => if s = "x" then some (.Int 3) else none)
      (fun s => if s = "x" then some (.Value (.Int 3)) else none)
      (.Symbol ⟨"x"⟩)).1 (by with_unfolding_all decide),
   (c9_idempotent_on_value_results TM0 5 5
      (fun s => if s = "x" then some (.Int 3) else none)
      (fun s => if s = "x" then some (.Value (.Int 3)) else none)
      (.Symbol ⟨"x"⟩)).2 (by with_unfolding_all decide)⟩

/-- C7 amended: value arithmetic is total — every pair of operands
yields a result — but integer-integer addition, subtraction and
multiplication wrap two's-complement modulo 2^64 and stay within the
`i64` range rather than propagating IEEE-754 infinities or `NaN`;
IEEE semantics apply to the floating-point kinds only. -/
theorem c7_int_arithmetic_wraps (l r : ℤ) :
    Value.add (.Int l) (.Int r) = .Int (wrap64 (l + r)) ∧
      Value.sub (.Int l) (.Int r) = .Int (wrap64 (l - r)) ∧
      Value.mul (.Int l) (.Int r) = .Int (wrap64 (l * r)) ∧
      -(2 ^ 63) ≤ wrap64 (l + r) ∧ wrap64 (l + r) < 2 ^ 63 := by
  refine ⟨rfl, rfl, rfl, ?_, ?_⟩ <;>
  · unfold wrap64
    have h1 : (0 : ℤ) ≤ (l + r + 2 ^ 63) % 2 ^ 64 :=
      Int.emod_nonneg (l + r + 2 ^ 63) (by norm_num)
    have h2 : (l + r + 2 ^ 63) % 2 ^ 64 < 2 ^ 64 :=
      Int.emod_lt_of_pos (l + r + 2 ^ 63) (by norm_num)
    omega

end SymEngine
